import Mathlib

/-!
Verification of the Application State Engine of the opencode-ide repository.

The definitions below are a shallow embedding of the TypeScript sources:
  * `src/domain/types.ts`   — the data model,
  * `src/domain/themes.ts`  — the static theme table,
  * `src/application/store.ts` — `createInitialState`, the id generators,
    `getActivePane`, `updatePaneInLayout`, `basename`, `detectLanguage`
    and the transition function `appReducer`,
  * `src/application/commands.ts` — the command-line parsing part of
    `CommandRegistry.executeCommandLine`,
  * the Bun process adapter — the pseudo-terminal handle returned by
    `spawnPty` (its `onData`/`onExit`/`resize`/`kill`/`write` operations).

JavaScript `Map` objects are embedded as insertion-ordered association
lists, matching the iteration-order semantics the reducer relies on.
JavaScript array accesses `xs[i]` with an arbitrary signed index are
embedded through `jsIndex`, which returns `none` exactly when the access
yields `undefined`; a subsequent property read on `undefined` (a runtime
`TypeError`) is embedded as the reducer returning `none`.  The module-level
mutable id counters of `store.ts` are threaded explicitly through an
`IdCounters` record.
-/

/-! ## Data model (`src/domain/types.ts`) -/

structure CursorPosition where
  line : Nat
  column : Nat
  offset : Nat
  deriving DecidableEq

structure Selection where
  anchor : CursorPosition
  focus : CursorPosition
  deriving DecidableEq

/-- Buffer state; `filePath = none` means an untitled/scratch buffer. -/
structure BufferState where
  id : String
  filePath : Option String
  content : String
  isDirty : Bool
  language : Option String
  cursorPosition : CursorPosition
  selection : Option Selection
  deriving DecidableEq

structure Tab where
  id : String
  bufferId : String
  label : String
  isActive : Bool
  isPinned : Bool
  deriving DecidableEq

inductive PaneDirection where
  | horizontal
  | vertical
  deriving DecidableEq

inductive PaneKind where
  | editor
  | terminal
  | explorer
  | output
  deriving DecidableEq

structure Pane where
  id : String
  type : PaneKind
  tabs : List Tab
  activeTabId : Option String
  size : Nat
  deriving DecidableEq

/-- Pane tree node: a tagged union of a leaf pane or a split with children. -/
inductive PaneNode where
  | leaf (pane : Pane)
  | split (direction : PaneDirection) (children : List PaneNode) (sizes : List Nat)

structure PaneLayout where
  root : PaneNode

inductive ThemeKind where
  | dark
  | light
  deriving DecidableEq

structure ThemeColors where
  background : String
  foreground : String
  primary : String
  secondary : String
  accent : String
  error : String
  warning : String
  success : String
  info : String
  border : String
  selection : String
  lineHighlight : String
  comment : String
  keyword : String
  string : String
  number : String
  function : String
  «variable» : String
  type : String
  operator : String
  deriving DecidableEq

structure Theme where
  id : String
  name : String
  type : ThemeKind
  colors : ThemeColors
  deriving DecidableEq

inductive FileEntryKind where
  | file
  | directory
  deriving DecidableEq

/-- File entry; the optional `modifiedAt : Date` field of the source is
never read by the state engine and is omitted from the embedding. -/
structure FileEntry where
  name : String
  path : String
  type : FileEntryKind
  size : Option Nat
  deriving DecidableEq

structure DirectoryTree where
  entry : FileEntry
  children : List DirectoryTree
  isExpanded : Bool

structure TerminalState where
  id : String
  title : String
  cwd : String
  isActive : Bool
  pid : Option Nat
  deriving DecidableEq

inductive DiagnosticSeverity where
  | error
  | warning
  | info
  | hint
  deriving DecidableEq

/-- Diagnostic code, a union `string | number` in the source. -/
inductive DiagnosticCode where
  | str (s : String)
  | num (n : Nat)
  deriving DecidableEq

structure Diagnostic where
  rangeStart : CursorPosition
  rangeEnd : CursorPosition
  severity : DiagnosticSeverity
  message : String
  source : Option String
  code : Option DiagnosticCode
  deriving DecidableEq

/-- Palette item; the `action` callback field (a function value) is never
read by the reducer and is omitted from the embedding. -/
structure PaletteItem where
  id : String
  label : String
  description : Option String
  icon : Option String
  deriving DecidableEq

inductive FocusTarget where
  | editor
  | commandLine
  | explorer
  | terminal
  | palette
  deriving DecidableEq

structure WorkspaceState where
  rootPath : Option String
  directoryTree : Option DirectoryTree

structure CommandLineState where
  isOpen : Bool
  value : String
  deriving DecidableEq

structure PaletteState where
  isOpen : Bool
  query : String
  items : List PaletteItem
  deriving DecidableEq

/-- The root application state.  The `filePicker`/`themePicker` fields
declared in `types.ts` are never initialized by `createInitialState` nor
touched by any `appReducer` case and are omitted from the embedding. -/
structure AppState where
  workspace : WorkspaceState
  buffers : List (String × BufferState)
  layout : PaneLayout
  theme : Theme
  focusTarget : FocusTarget
  commandLine : CommandLineState
  palette : PaletteState
  terminals : List (String × TerminalState)
  diagnostics : List (String × List Diagnostic)

/-! ## Static theme table (`src/domain/themes.ts`) -/

def tokyoNightColors : ThemeColors :=
  { background := "#1a1b26", foreground := "#c0caf5", primary := "#7aa2f7"
    secondary := "#bb9af7", accent := "#7dcfff", error := "#f7768e"
    warning := "#e0af68", success := "#9ece6a", info := "#7dcfff"
    border := "#3b4261", selection := "#33467c", lineHighlight := "#292e42"
    comment := "#565f89", keyword := "#bb9af7", string := "#9ece6a"
    number := "#ff9e64", function := "#7aa2f7", «variable» := "#c0caf5"
    type := "#2ac3de", operator := "#89ddff" }

def tokyoNight : Theme :=
  { id := "tokyo-night", name := "Tokyo Night", type := .dark, colors := tokyoNightColors }

def catppuccinMochaColors : ThemeColors :=
  { background := "#1e1e2e", foreground := "#cdd6f4", primary := "#89b4fa"
    secondary := "#cba6f7", accent := "#94e2d5", error := "#f38ba8"
    warning := "#fab387", success := "#a6e3a1", info := "#89dceb"
    border := "#45475a", selection := "#45475a", lineHighlight := "#313244"
    comment := "#6c7086", keyword := "#cba6f7", string := "#a6e3a1"
    number := "#fab387", function := "#89b4fa", «variable» := "#cdd6f4"
    type := "#94e2d5", operator := "#89dceb" }

def catppuccinMocha : Theme :=
  { id := "catppuccin-mocha", name := "Catppuccin Mocha", type := .dark
    colors := catppuccinMochaColors }

def draculaColors : ThemeColors :=
  { background := "#282a36", foreground := "#f8f8f2", primary := "#bd93f9"
    secondary := "#ff79c6", accent := "#8be9fd", error := "#ff5555"
    warning := "#ffb86c", success := "#50fa7b", info := "#8be9fd"
    border := "#44475a", selection := "#44475a", lineHighlight := "#44475a"
    comment := "#6272a4", keyword := "#ff79c6", string := "#f1fa8c"
    number := "#bd93f9", function := "#50fa7b", «variable» := "#f8f8f2"
    type := "#8be9fd", operator := "#ff79c6" }

def dracula : Theme :=
  { id := "dracula", name := "Dracula", type := .dark, colors := draculaColors }

def oneLightColors : ThemeColors :=
  { background := "#fafafa", foreground := "#383a42", primary := "#4078f2"
    secondary := "#a626a4", accent := "#0184bc", error := "#e45649"
    warning := "#c18401", success := "#50a14f", info := "#0184bc"
    border := "#d3d3d3", selection := "#e5e5e6", lineHighlight := "#f0f0f0"
    comment := "#a0a1a7", keyword := "#a626a4", string := "#50a14f"
    number := "#986801", function := "#4078f2", «variable» := "#383a42"
    type := "#0184bc", operator := "#383a42" }

def oneLight : Theme :=
  { id := "one-light", name := "One Light", type := .light, colors := oneLightColors }

def defaultThemes : List Theme := [tokyoNight, catppuccinMocha, dracula, oneLight]

def defaultTheme : Theme := tokyoNight

/-! ## JavaScript semantics helpers -/

/-- Lookup in a JavaScript `Map` embedded as an insertion-ordered
association list (`Map.prototype.get`). -/
def mapGet {β : Type} (m : List (String × β)) (k : String) : Option β :=
  (m.find? fun kv => decide (kv.1 = k)).map (·.2)

/-- Insertion into a JavaScript `Map` (`Map.prototype.set`): an existing
key keeps its position and gets the new value, a fresh key is appended. -/
def mapSet {β : Type} (m : List (String × β)) (k : String) (v : β) :
    List (String × β) :=
  if m.any (fun kv => decide (kv.1 = k)) then
    m.map fun kv => if kv.1 = k then (k, v) else kv
  else
    m ++ [(k, v)]

/-- Deletion from a JavaScript `Map` (`Map.prototype.delete`). -/
def mapDelete {β : Type} (m : List (String × β)) (k : String) :
    List (String × β) :=
  m.filter fun kv => !decide (kv.1 = k)

/-- JavaScript array indexing `xs[i]` with a signed index: `none` models
the `undefined` result of an out-of-range access. -/
def jsIndex {α : Type} (l : List α) (i : Int) : Option α :=
  if i < 0 then none else l[i.toNat]?

/-- JavaScript `Array.prototype.findIndex`: the index of the first match,
or `-1` when there is none. -/
def jsFindIndex {α : Type} (p : α → Bool) (l : List α) : Int :=
  match l.findIdx? p with
  | some i => (i : Int)
  | none => -1

/-- JavaScript `a || b` specialized to a nullable string on the left:
both `null` and the empty string are falsy. -/
def jsStringOr (o : Option String) (dflt : String) : String :=
  match o with
  | some s => if s = "" then dflt else s
  | none => dflt

/-- Character-level worker for `jsSplit`. -/
def splitCharList (sep : Char) : List Char → List (List Char)
  | [] => [[]]
  | c :: rest =>
    match splitCharList sep rest with
    | [] => [[]]
    | cur :: parts => if c = sep then [] :: cur :: parts else (c :: cur) :: parts

/-- JavaScript `String.prototype.split` with a one-character separator:
every occurrence splits, so adjacent separators produce empty segments and
the result is never empty. -/
def jsSplit (s : String) (sep : Char) : List String :=
  (splitCharList sep s.data).map fun l => ⟨l⟩

/-- JavaScript `String.prototype.trim` (the state engine only ever trims
ASCII whitespace). -/
def jsTrim (s : String) : String :=
  ⟨((s.data.dropWhile Char.isWhitespace).reverse.dropWhile Char.isWhitespace).reverse⟩

/-- JavaScript `String.prototype.toLowerCase` (only ASCII letters occur in
the command-line alias table). -/
def jsToLower (s : String) : String :=
  ⟨s.data.map Char.toLower⟩

mutual

/-- JavaScript `String.prototype.split(/\s+/)` on a character list: a run
of whitespace ends the current token; a leading or trailing run produces a
leading or trailing empty token, exactly as the regexp split does. -/
def splitWsGo : List Char → List Char → List String
  | [], acc => [⟨acc.reverse⟩]
  | c :: rest, acc =>
    if c.isWhitespace then (⟨acc.reverse⟩ : String) :: splitWsSkip rest
    else splitWsGo rest (c :: acc)
termination_by structural l => l

/-- Skips the remainder of a whitespace run for `splitWsGo`. -/
def splitWsSkip : List Char → List String
  | [] => [""]
  | c :: rest => if c.isWhitespace then splitWsSkip rest else splitWsGo rest [c]
termination_by structural l => l

end

/-- JavaScript `input.split(/\s+/)`. -/
def jsSplitWs (s : String) : List String :=
  splitWsGo s.data []

/-! ## Store helpers (`src/application/store.ts`) -/

def createInitialPane : Pane :=
  { id := "main-pane", type := .editor, tabs := [], activeTabId := none, size := 100 }

def createInitialLayout : PaneLayout :=
  ⟨.leaf createInitialPane⟩

def createInitialState : AppState :=
  { workspace := ⟨none, none⟩
    buffers := []
    layout := createInitialLayout
    theme := defaultTheme
    focusTarget := .editor
    commandLine := ⟨false, ""⟩
    palette := ⟨false, "", []⟩
    terminals := []
    diagnostics := [] }

/-- The module-level mutable id counters of `store.ts`, threaded
explicitly through the transition function. -/
structure IdCounters where
  bufferId : Nat
  tabId : Nat
  terminalId : Nat
  deriving DecidableEq

/-- Source: `` `buffer-${++bufferId}` `` applied to the incremented counter. -/
def generateBufferId (n : Nat) : String := "buffer-" ++ Nat.repr n

/-- Source: `` `tab-${++tabId}` `` applied to the incremented counter. -/
def generateTabId (n : Nat) : String := "tab-" ++ Nat.repr n

/-- Source: `` `terminal-${++terminalId}` `` applied to the incremented counter. -/
def generateTerminalId (n : Nat) : String := "terminal-" ++ Nat.repr n

mutual

/-- The inner `findPane` recursion of `getActivePane`: the first leaf pane
in pre-order, if any. -/
def findPane : PaneNode → Option Pane
  | .leaf pane => some pane
  | .split _ children _ => findPaneList children
termination_by structural n => n

/-- The `for (const child of node.children)` loop of `findPane` with its
early return. -/
def findPaneList : List PaneNode → Option Pane
  | [] => none
  | child :: rest =>
    match findPane child with
    | some found => some found
    | none => findPaneList rest
termination_by structural l => l

end

def getActivePane (layout : PaneLayout) : Option Pane :=
  findPane layout.root

mutual

/-- Recursive immutable update of the pane with the given id. -/
def updatePaneInLayout (node : PaneNode) (paneId : String) (updater : Pane → Pane) :
    PaneNode :=
  match node with
  | .leaf pane => if pane.id = paneId then .leaf (updater pane) else .leaf pane
  | .split direction children sizes =>
    .split direction (updatePaneInLayoutList children paneId updater) sizes
termination_by structural node

/-- The `node.children.map(...)` recursion of `updatePaneInLayout`. -/
def updatePaneInLayoutList (children : List PaneNode) (paneId : String)
    (updater : Pane → Pane) : List PaneNode :=
  match children with
  | [] => []
  | child :: rest =>
    updatePaneInLayout child paneId updater :: updatePaneInLayoutList rest paneId updater
termination_by structural children

end

/-- Source: `path.split("/")` and then the last segment, falling back to
the whole path when that segment is falsy (the empty string). -/
def basename (path : String) : String :=
  let parts := jsSplit path '/'
  match parts.getLast? with
  | some s => if s = "" then path else s
  | none => path

def languageMapTable : List (String × String) :=
  [("ts", "typescript"), ("tsx", "typescriptreact"), ("js", "javascript")
  , ("jsx", "javascriptreact"), ("py", "python"), ("go", "go"), ("rs", "rust")
  , ("md", "markdown"), ("json", "json"), ("yaml", "yaml"), ("yml", "yaml")
  , ("html", "html"), ("css", "css"), ("scss", "scss"), ("less", "less")
  , ("sh", "shellscript"), ("bash", "shellscript"), ("zsh", "shellscript")]

/-- Source: `path.split(".").pop()?.toLowerCase()` looked up in the static
extension table; a falsy (empty) extension yields `null`. -/
def detectLanguage (path : String) : Option String :=
  match ((jsSplit path '.').getLast?).map jsToLower with
  | none => none
  | some e =>
    if e = "" then none
    else (languageMapTable.find? fun kv => decide (kv.1 = e)).map (·.2)

mutual

/-- The `toggleInTree` helper of the `TOGGLE_DIRECTORY` case: flip the
expanded flag exactly on the node whose path matches. -/
def toggleInTree (path : String) : DirectoryTree → DirectoryTree
  | ⟨entry, children, isExpanded⟩ =>
    if entry.path = path then ⟨entry, children, !isExpanded⟩
    else ⟨entry, toggleInTreeList path children, isExpanded⟩
termination_by structural t => t

/-- The `node.children.map(toggleInTree)` recursion of `toggleInTree`. -/
def toggleInTreeList (path : String) : List DirectoryTree → List DirectoryTree
  | [] => []
  | child :: rest => toggleInTree path child :: toggleInTreeList path rest
termination_by structural l => l

end

/-- Models the value of the external `process.cwd()` call in the
`OPEN_TERMINAL` case; its concrete value is irrelevant to every property
proved in this file. -/
def processCwd : String := "/"

/-! ## Actions (`src/domain/types.ts`, `AppAction`) -/

inductive AppAction where
  | openFile (path : String)
  | saveFile (bufferId : String)
  | closeTab (tabId : String)
  | newFile
  | setBufferContent (bufferId : String) (content : String)
  | setCursor (bufferId : String) (position : CursorPosition)
  | setSelection (bufferId : String) (selection : Option Selection)
  | setFocus (target : FocusTarget)
  | switchTab (tabId : String)
  | nextTab
  | prevTab
  | openCommandLine
  | closeCommandLine
  | setCommandLineValue (value : String)
  | executeCommand (command : String)
  | openPalette
  | closePalette
  | setPaletteQuery (query : String)
  | setTheme (themeId : String)
  | toggleTheme
  | openTerminal
  | closeTerminal (terminalId : String)
  | focusTerminal (terminalId : String)
  | setWorkspace (path : String)
  | setDirectoryTree (tree : DirectoryTree)
  | loadDirectoryChildren (path : String) (children : List DirectoryTree)
  | refreshTree
  | toggleDirectory (path : String)
  | splitPane (direction : PaneDirection)
  | closePane (paneId : String)
  | resizePane (paneId : String) (size : Nat)

/-! ## The transition function (`appReducer`) -/

/-- The body of the `SWITCH_TAB` case.  The `NEXT_TAB`/`PREV_TAB` cases of
the source dispatch a `SWITCH_TAB` action through a recursive `appReducer`
call; the embedding shares this helper instead. -/
def applySwitchTab (state : AppState) (tabId : String) : AppState :=
  match getActivePane state.layout with
  | none => state
  | some pane =>
    { state with
      layout := ⟨updatePaneInLayout state.layout.root pane.id fun p =>
        { p with
          activeTabId := some tabId
          tabs := p.tabs.map fun t => { t with isActive := decide (t.id = tabId) } }⟩ }

/-- The `for (const [id, buffer] of state.buffers)` scan of the
`OPEN_FILE` case: the first buffer whose `filePath` matches and for which
the active pane holds a referencing tab, together with that pane. -/
def findExistingOpenTab (buffers : List (String × BufferState)) (layout : PaneLayout)
    (path : String) : Option (Pane × Tab) :=
  match buffers with
  | [] => none
  | (id, buffer) :: rest =>
    if buffer.filePath = some path then
      match getActivePane layout with
      | some pane =>
        match pane.tabs.find? (fun t => decide (t.bufferId = id)) with
        | some existingTab => some (pane, existingTab)
        | none => findExistingOpenTab rest layout path
      | none => findExistingOpenTab rest layout path
    else findExistingOpenTab rest layout path

/-- The transition function of the store.  A `none` result embeds a
JavaScript runtime exception (a property read on `undefined`); every other
outcome of the source returns a state. -/
def appReducer (ctr : IdCounters) (state : AppState) (action : AppAction) :
    Option (IdCounters × AppState) :=
  match action with
  | .openFile path =>
    match findExistingOpenTab state.buffers state.layout path with
    | some (pane, existingTab) =>
      some (ctr, { state with
        layout := ⟨updatePaneInLayout state.layout.root pane.id fun p =>
          { p with
            activeTabId := some existingTab.id
            tabs := p.tabs.map fun t =>
              { t with isActive := decide (t.id = existingTab.id) } }⟩
        focusTarget := .editor })
    | none =>
      let newBufferId := generateBufferId (ctr.bufferId + 1)
      let ctr1 : IdCounters := { ctr with bufferId := ctr.bufferId + 1 }
      let newBuffer : BufferState :=
        { id := newBufferId, filePath := some path, content := ""
          isDirty := false, language := detectLanguage path
          cursorPosition := ⟨0, 0, 0⟩, selection := none }
      let newTab : Tab :=
        { id := generateTabId (ctr1.tabId + 1), bufferId := newBufferId
          label := basename path, isActive := true, isPinned := false }
      let ctr2 : IdCounters := { ctr1 with tabId := ctr1.tabId + 1 }
      let newBuffers := mapSet state.buffers newBufferId newBuffer
      match getActivePane state.layout with
      | none => some (ctr2, state)
      | some pane =>
        some (ctr2, { state with
          buffers := newBuffers
          layout := ⟨updatePaneInLayout state.layout.root pane.id fun p =>
            { p with
              activeTabId := some newTab.id
              tabs := (p.tabs.map fun t => { t with isActive := false }) ++ [newTab] }⟩
          focusTarget := .editor })
  | .saveFile bufferId =>
    match mapGet state.buffers bufferId with
    | none => some (ctr, state)
    | some buffer =>
      some (ctr, { state with
        buffers := mapSet state.buffers bufferId { buffer with isDirty := false } })
  | .closeTab tabId =>
    match getActivePane state.layout with
    | none => some (ctr, state)
    | some pane =>
      match pane.tabs.findIdx? (fun t => decide (t.id = tabId)) with
      | none => some (ctr, state)
      | some tabIndex =>
        match pane.tabs[tabIndex]? with
        | none => none
        | some closingTab =>
          let newTabs := pane.tabs.filter fun t => !decide (t.id = tabId)
          let newBuffers :=
            if newTabs.any (fun t => decide (t.bufferId = closingTab.bufferId)) then
              state.buffers
            else mapDelete state.buffers closingTab.bufferId
          let newActiveResult : Option (Option String) :=
            if newTabs.length > 0 then
              if closingTab.isActive then
                (jsIndex newTabs (min (tabIndex : Int) ((newTabs.length : Int) - 1))).map
                  fun t => some t.id
              else some pane.activeTabId
            else some none
          match newActiveResult with
          | none => none
          | some newActiveTabId =>
            some (ctr, { state with
              buffers := newBuffers
              layout := ⟨updatePaneInLayout state.layout.root pane.id fun p =>
                { p with
                  activeTabId := newActiveTabId
                  tabs := newTabs.map fun t =>
                    { t with isActive := decide (some t.id = newActiveTabId) } }⟩ })
  | .newFile =>
    let newBufferId := generateBufferId (ctr.bufferId + 1)
    let ctr1 : IdCounters := { ctr with bufferId := ctr.bufferId + 1 }
    let newBuffer : BufferState :=
      { id := newBufferId, filePath := none, content := "", isDirty := false
        language := none, cursorPosition := ⟨0, 0, 0⟩, selection := none }
    let newTab : Tab :=
      { id := generateTabId (ctr1.tabId + 1), bufferId := newBufferId
        label := "Untitled", isActive := true, isPinned := false }
    let ctr2 : IdCounters := { ctr1 with tabId := ctr1.tabId + 1 }
    let newBuffers := mapSet state.buffers newBufferId newBuffer
    match getActivePane state.layout with
    | none => some (ctr2, state)
    | some pane =>
      some (ctr2, { state with
        buffers := newBuffers
        layout := ⟨updatePaneInLayout state.layout.root pane.id fun p =>
          { p with
            activeTabId := some newTab.id
            tabs := (p.tabs.map fun t => { t with isActive := false }) ++ [newTab] }⟩
        focusTarget := .editor })
  | .setBufferContent bufferId content =>
    match mapGet state.buffers bufferId with
    | none => some (ctr, state)
    | some buffer =>
      some (ctr, { state with
        buffers := mapSet state.buffers bufferId
          { buffer with content := content, isDirty := decide (buffer.content ≠ content) } })
  | .setCursor bufferId position =>
    match mapGet state.buffers bufferId with
    | none => some (ctr, state)
    | some buffer =>
      some (ctr, { state with
        buffers := mapSet state.buffers bufferId { buffer with cursorPosition := position } })
  | .setSelection bufferId selection =>
    match mapGet state.buffers bufferId with
    | none => some (ctr, state)
    | some buffer =>
      some (ctr, { state with
        buffers := mapSet state.buffers bufferId { buffer with selection := selection } })
  | .setFocus target => some (ctr, { state with focusTarget := target })
  | .switchTab tabId => some (ctr, applySwitchTab state tabId)
  | .nextTab =>
    match getActivePane state.layout with
    | none => some (ctr, state)
    | some pane =>
      if pane.tabs.length = 0 then some (ctr, state)
      else
        let currentIndex := jsFindIndex (fun t => t.isActive) pane.tabs
        let nextIndex := (currentIndex + 1) % (pane.tabs.length : Int)
        match jsIndex pane.tabs nextIndex with
        | none => none
        | some nextTab => some (ctr, applySwitchTab state nextTab.id)
  | .prevTab =>
    match getActivePane state.layout with
    | none => some (ctr, state)
    | some pane =>
      if pane.tabs.length = 0 then some (ctr, state)
      else
        let currentIndex := jsFindIndex (fun t => t.isActive) pane.tabs
        let prevIndex : Int :=
          if currentIndex = 0 then (pane.tabs.length : Int) - 1 else currentIndex - 1
        match jsIndex pane.tabs prevIndex with
        | none => none
        | some prevTab => some (ctr, applySwitchTab state prevTab.id)
  | .openCommandLine =>
    some (ctr, { state with commandLine := ⟨true, ""⟩, focusTarget := .commandLine })
  | .closeCommandLine =>
    some (ctr, { state with commandLine := ⟨false, ""⟩, focusTarget := .editor })
  | .setCommandLineValue value =>
    some (ctr, { state with commandLine := { state.commandLine with value := value } })
  | .executeCommand _ =>
    some (ctr, { state with commandLine := ⟨false, ""⟩, focusTarget := .editor })
  | .openPalette =>
    some (ctr, { state with palette := ⟨true, "", []⟩, focusTarget := .palette })
  | .closePalette =>
    some (ctr, { state with palette := ⟨false, "", []⟩, focusTarget := .editor })
  | .setPaletteQuery query =>
    some (ctr, { state with palette := { state.palette with query := query } })
  | .setTheme themeId =>
    match defaultThemes.find? (fun t => decide (t.id = themeId)) with
    | none => some (ctr, state)
    | some theme => some (ctr, { state with theme := theme })
  | .toggleTheme =>
    let currentIndex := jsFindIndex (fun t => decide (t.id = state.theme.id)) defaultThemes
    let nextIndex := (currentIndex + 1) % (defaultThemes.length : Int)
    match jsIndex defaultThemes nextIndex with
    | none => none
    | some theme => some (ctr, { state with theme := theme })
  | .openTerminal =>
    let id := generateTerminalId (ctr.terminalId + 1)
    let ctr1 : IdCounters := { ctr with terminalId := ctr.terminalId + 1 }
    let terminal : TerminalState :=
      { id := id, title := "Terminal"
        cwd := jsStringOr state.workspace.rootPath processCwd
        isActive := true, pid := none }
    let deactivated := state.terminals.map fun kv => (kv.1, { kv.2 with isActive := false })
    some (ctr1, { state with
      terminals := mapSet deactivated id terminal
      focusTarget := .terminal })
  | .closeTerminal terminalId =>
    let newTerminals := mapDelete state.terminals terminalId
    let wasActive :=
      match mapGet state.terminals terminalId with
      | some t => t.isActive
      | none => false
    if wasActive then
      match newTerminals with
      | [] => some (ctr, { state with terminals := newTerminals, focusTarget := .editor })
      | (_, first) :: _ =>
        some (ctr, { state with
          terminals := mapSet newTerminals first.id { first with isActive := true } })
    else some (ctr, { state with terminals := newTerminals })
  | .focusTerminal terminalId =>
    some (ctr, { state with
      terminals := state.terminals.map fun kv =>
        (kv.1, { kv.2 with isActive := decide (kv.1 = terminalId) })
      focusTarget := .terminal })
  | .setWorkspace path =>
    some (ctr, { state with workspace := ⟨some path, none⟩ })
  | .refreshTree => some (ctr, state)
  | .toggleDirectory path =>
    match state.workspace.directoryTree with
    | none => some (ctr, state)
    | some tree =>
      some (ctr, { state with
        workspace := { state.workspace with directoryTree := some (toggleInTree path tree) } })
  | .splitPane _ => some (ctr, state)
  | .closePane _ => some (ctr, state)
  | .resizePane _ _ => some (ctr, state)
  | .setDirectoryTree _ => some (ctr, state)
  | .loadDirectoryChildren _ _ => some (ctr, state)

/-! ## Dispatch sequences and reachability -/

/-- A store snapshot together with the module-level id counters. -/
structure Sys where
  ctr : IdCounters
  state : AppState

/-- One `store.dispatch` call; `none` embeds a thrown exception, in which
case the stored snapshot is not replaced. -/
def dispatch (s : Sys) (a : AppAction) : Option Sys :=
  (appReducer s.ctr s.state a).map fun ca => ⟨ca.1, ca.2⟩

def initialSys : Sys :=
  ⟨⟨0, 0, 0⟩, createInitialState⟩

/-- States reachable from the initial store by successful dispatches. -/
inductive Reachable : Sys → Prop where
  | init : Reachable initialSys
  | step {s s' : Sys} {a : AppAction} :
      Reachable s → dispatch s a = some s' → Reachable s'

/-- An action is switch-safe when, if it is a `SWITCH_TAB`, its target tab
is present in the active pane. -/
def switchTargetsExist (state : AppState) (a : AppAction) : Prop :=
  ∀ tid, a = .switchTab tid →
    ∃ p, getActivePane state.layout = some p ∧ tid ∈ p.tabs.map (·.id)

/-- States reachable using only switch-safe actions. -/
inductive ReachableGood : Sys → Prop where
  | init : ReachableGood initialSys
  | step {s s' : Sys} {a : AppAction} :
      ReachableGood s → switchTargetsExist s.state a → dispatch s a = some s' →
      ReachableGood s'

/-- Tab list of the active pane (empty when there is no pane). -/
def paneTabs (state : AppState) : List Tab :=
  match getActivePane state.layout with
  | some p => p.tabs
  | none => []

/-- Active-tab pointer of the active pane (`none` when there is no pane). -/
def paneActiveTabId (state : AppState) : Option String :=
  match getActivePane state.layout with
  | some p => p.activeTabId
  | none => none

mutual

/-- All panes appearing in a pane tree, in pre-order. -/
def panesOf : PaneNode → List Pane
  | .leaf pane => [pane]
  | .split _ children _ => panesOfList children
termination_by structural n => n

def panesOfList : List PaneNode → List Pane
  | [] => []
  | child :: rest => panesOf child ++ panesOfList rest
termination_by structural l => l

end

/-! ## Command-line parsing (`src/application/commands.ts`) -/

/-- Outcome of `CommandRegistry.executeCommandLine`: either nothing happens
(blank input), or an unknown command word is reported (a non-fatal logged
error, no command executes and no state transition is dispatched), or the
command with the given identifier runs with the given argument list. -/
inductive CommandLineOutcome where
  | noOp
  | unknownCommand (word : String)
  | run (commandId : String) (args : List String)
  deriving DecidableEq

/-- The static command-line alias table of `executeCommandLine`. -/
def aliasMap : List (String × String) :=
  [("save", "file.save"), ("w", "file.save"), ("write", "file.save")
  , ("open", "file.open"), ("e", "file.open"), ("edit", "file.open")
  , ("new", "file.new"), ("close", "tab.close")
  , ("q", "app.quit"), ("quit", "app.quit"), ("qa", "app.quitAll")
  , ("wq", "file.saveAndQuit")
  , ("tabnext", "tab.next"), ("tabprev", "tab.prev")
  , ("tabn", "tab.next"), ("tabp", "tab.prev")
  , ("theme", "theme.set"), ("colorscheme", "theme.set")
  , ("terminal", "terminal.open"), ("term", "terminal.open")
  , ("opencode", "opencode.open")
  , ("project", "project.open"), ("cd", "project.open")]

/-- The parsing and dispatch decision of
`CommandRegistry.executeCommandLine`: trim, strip one leading `:`, split on
whitespace runs, lowercase the command word, look it up in the alias
table. -/
def executeCommandLine (input : String) : CommandLineOutcome :=
  let trimmed := jsTrim input
  if trimmed = "" then .noOp
  else
    let line :=
      match trimmed.data with
      | ':' :: rest => (⟨rest⟩ : String)
      | _ => trimmed
    let parts := jsSplitWs line
    let commandName := jsToLower (parts.headD "")
    let args := parts.drop 1
    if commandName = "" then .noOp
    else
      match (aliasMap.find? fun kv => decide (kv.1 = commandName)).map (·.2) with
      | some commandId => .run commandId args
      | none => .unknownCommand commandName

/-! ## Pseudo-terminal handle (Bun process adapter, `spawnPty`) -/

/-- Observable state of the handle returned by `spawnPty`: the registered
data/exit callbacks (represented by identifiers of type `κ`), the text
written to the child process, and whether `kill` was invoked.  The spawned
child process itself is external; the fields here are exactly what the
handle's methods can mutate. -/
structure PtyHandleState (κ : Type) where
  dataCallbacks : List κ
  exitCallbacks : List κ
  written : List String
  killed : Bool
  deriving DecidableEq

/-- Handle state immediately after `spawnPty` returns. -/
def spawnPtyState (κ : Type) : PtyHandleState κ :=
  { dataCallbacks := [], exitCallbacks := [], written := [], killed := false }

/-- The handle's `write(data)`: forwards the text to the child. -/
def ptyWrite {κ : Type} (s : PtyHandleState κ) (data : String) : PtyHandleState κ :=
  { s with written := s.written ++ [data] }

/-- The handle's `onData(callback)`: pushes the callback. -/
def ptyOnData {κ : Type} (s : PtyHandleState κ) (cb : κ) : PtyHandleState κ :=
  { s with dataCallbacks := s.dataCallbacks ++ [cb] }

/-- The handle's `onExit(callback)`: pushes the callback. -/
def ptyOnExit {κ : Type} (s : PtyHandleState κ) (cb : κ) : PtyHandleState κ :=
  { s with exitCallbacks := s.exitCallbacks ++ [cb] }

/-- The handle's `resize(cols, rows)`: the source body is empty (resizing
cannot be propagated through the `script(1)`-based channel, so the request
is deliberately dropped); both arguments are ignored and nothing is
mutated or thrown. -/
def ptyResize {κ : Type} (s : PtyHandleState κ) (_cols _rows : Nat) : PtyHandleState κ :=
  s

/-- The handle's `kill()`. -/
def ptyKill {κ : Type} (s : PtyHandleState κ) : PtyHandleState κ :=
  { s with killed := true }

/-! ## Injectivity of the id generators -/

theorem toDigitsCore_eq_digits (fuel : Nat) :
    ∀ (n : Nat) (acc : List Char), 0 < n → n < fuel →
      Nat.toDigitsCore 10 fuel n acc =
        ((Nat.digits 10 n).map Nat.digitChar).reverse ++ acc := by
  induction fuel with
  | zero => intro n acc _ hf; omega
  | succ fuel ih =>
    intro n acc h0 hf
    rw [Nat.toDigitsCore]
    by_cases hq : n / 10 = 0
    · have h10 : n < 10 := by omega
      rw [if_pos hq]
      rw [Nat.digits_def' (by norm_num : (1:Nat) < 10) h0, hq, Nat.digits_zero]
      simp
    · rw [if_neg hq]
      have hlt : n / 10 < fuel := by
        have : n / 10 < n := Nat.div_lt_self h0 (by norm_num)
        omega
      rw [ih (n / 10) _ (Nat.pos_of_ne_zero hq) hlt]
      rw [Nat.digits_def' (by norm_num : (1:Nat) < 10) h0]
      simp

theorem repr_eq_digits (n : Nat) (h0 : 0 < n) :
    Nat.repr n = (((Nat.digits 10 n).map Nat.digitChar).reverse).asString := by
  show (Nat.toDigits 10 n).asString = _
  rw [Nat.toDigits, toDigitsCore_eq_digits (n+1) n [] h0 (by omega)]
  simp

theorem digitChar_inj_lt : ∀ a, a < 10 → ∀ b, b < 10 →
    Nat.digitChar a = Nat.digitChar b → a = b := by decide

theorem map_digitChar_inj :
    ∀ (l1 l2 : List Nat), (∀ x ∈ l1, x < 10) → (∀ x ∈ l2, x < 10) →
      l1.map Nat.digitChar = l2.map Nat.digitChar → l1 = l2 := by
  intro l1
  induction l1 with
  | nil => intro l2 _ _ h; cases l2 <;> simp_all
  | cons a t ih =>
    intro l2 h1 h2 h
    cases l2 with
    | nil => simp_all
    | cons b t2 =>
      simp only [List.map_cons, List.cons.injEq] at h
      have ha : a = b :=
        digitChar_inj_lt a (h1 a (by simp)) b (h2 b (by simp)) h.1
      have ht : t = t2 := ih t2 (fun x hx => h1 x (by simp [hx]))
        (fun x hx => h2 x (by simp [hx])) h.2
      rw [ha, ht]

theorem asString_inj {l1 l2 : List Char} (h : l1.asString = l2.asString) : l1 = l2 := by
  have := congrArg String.data h
  simpa [List.asString] using this

theorem nat_repr_injective : ∀ {m n : Nat}, Nat.repr m = Nat.repr n → m = n := by
  intro m n h
  rcases Nat.eq_zero_or_pos m with hm | hm
  · rcases Nat.eq_zero_or_pos n with hn | hn
    · omega
    · exfalso
      subst hm
      rw [repr_eq_digits n hn] at h
      have hl : ['0'] = ((Nat.digits 10 n).map Nat.digitChar).reverse :=
        asString_inj h
      have : (Nat.digits 10 n).map Nat.digitChar = ['0'] := by
        have := congrArg List.reverse hl
        simpa using this.symm
      have hd : Nat.digits 10 n = [0] := by
        apply map_digitChar_inj
        · intro x hx; exact Nat.digits_lt_base (by norm_num) hx
        · intro x hx; simp at hx; omega
        · rw [this]; decide
      have := Nat.ofDigits_digits 10 n
      rw [hd] at this
      simp [Nat.ofDigits] at this
      omega
  · rcases Nat.eq_zero_or_pos n with hn | hn
    · exfalso
      subst hn
      rw [repr_eq_digits m hm] at h
      have hl : ((Nat.digits 10 m).map Nat.digitChar).reverse = ['0'] :=
        asString_inj h
      have : (Nat.digits 10 m).map Nat.digitChar = ['0'] := by
        have := congrArg List.reverse hl
        simpa using this
      have hd : Nat.digits 10 m = [0] := by
        apply map_digitChar_inj
        · intro x hx; exact Nat.digits_lt_base (by norm_num) hx
        · intro x hx; simp at hx; omega
        · rw [this]; decide
      have := Nat.ofDigits_digits 10 m
      rw [hd] at this
      simp [Nat.ofDigits] at this
      omega
    · rw [repr_eq_digits m hm, repr_eq_digits n hn] at h
      have hl := asString_inj h
      have hmap : (Nat.digits 10 m).map Nat.digitChar = (Nat.digits 10 n).map Nat.digitChar := by
        have := congrArg List.reverse hl
        simpa using this
      have hd : Nat.digits 10 m = Nat.digits 10 n := by
        apply map_digitChar_inj
        · intro x hx; exact Nat.digits_lt_base (by norm_num) hx
        · intro x hx; exact Nat.digits_lt_base (by norm_num) hx
        · exact hmap
      have h1 := Nat.ofDigits_digits 10 m
      have h2 := Nat.ofDigits_digits 10 n
      rw [hd] at h1
      omega

theorem string_append_data (a b : String) : (a ++ b).data = a.data ++ b.data := rfl

theorem string_append_left_inj {p a b : String} (h : p ++ a = p ++ b) : a = b := by
  have hdata : (p ++ a).data = (p ++ b).data := by rw [h]
  rw [string_append_data, string_append_data] at hdata
  have hd := List.append_cancel_left hdata
  cases a; cases b; cases hd; rfl

theorem generateTabId_injective {m n : Nat} (h : generateTabId m = generateTabId n) :
    m = n :=
  nat_repr_injective (string_append_left_inj h)

/-! ## Association-list map lemmas -/

theorem mem_mapSet {β : Type} {m : List (String × β)} {k : String} {v : β}
    {e : String × β} (he : e ∈ mapSet m k v) :
    e ∈ m ∨ e = (k, v) := by
  unfold mapSet at he
  split at he
  · rcases List.mem_map.mp he with ⟨e0, he0, heq⟩
    by_cases h0 : e0.1 = k
    · right; rw [if_pos h0] at heq; exact heq.symm
    · left; rw [if_neg h0] at heq; rwa [heq] at he0
  · rcases List.mem_append.mp he with h | h
    · left; exact h
    · right; simpa using h

theorem keys_mapSet_of_mem {β : Type} {m : List (String × β)} {k : String} {v : β}
    (hk : m.any (fun kv => decide (kv.1 = k))) :
    (mapSet m k v).map (·.1) = m.map (·.1) := by
  unfold mapSet
  rw [if_pos hk]
  rw [List.map_map]
  apply List.map_congr_left
  intro e _
  by_cases h : e.1 = k
  · simp [h]
  · simp [h]

theorem mapGet_eq_none_iff {β : Type} {m : List (String × β)} {k : String} :
    mapGet m k = none ↔ ∀ e ∈ m, e.1 ≠ k := by
  unfold mapGet
  simp [List.find?_eq_none]

theorem mem_mapDelete {β : Type} {m : List (String × β)} {k : String}
    {e : String × β} (he : e ∈ mapDelete m k) :
    e ∈ m ∧ e.1 ≠ k := by
  unfold mapDelete at he
  have := List.mem_filter.mp he
  simpa using this

theorem mapGet_of_mem_of_nodup {β : Type} {m : List (String × β)}
    (hnd : (m.map (·.1)).Nodup) {e : String × β} (he : e ∈ m) :
    mapGet m e.1 = some e.2 := by
  induction m with
  | nil => cases he
  | cons a t ih =>
    rw [List.map_cons, List.nodup_cons] at hnd
    rcases List.mem_cons.mp he with h | h
    · subst h
      unfold mapGet
      rw [List.find?_cons_of_pos _ (by simp)]
      rfl
    · have hne : a.1 ≠ e.1 := by
        intro hc
        exact hnd.1 (hc ▸ (List.mem_map.mpr ⟨e, h, rfl⟩))
      unfold mapGet
      rw [List.find?_cons_of_neg _ (by simp [hne])]
      exact ih hnd.2 h

/-! ## State invariants -/

/-- Every tab id in the list was produced by `generateTabId` at an index
at most `bound`, and those indices are pairwise distinct. -/
def tabIdsOk (bound : Nat) (tabs : List Tab) : Prop :=
  ∃ ixs : List Nat, tabs.map (·.id) = ixs.map generateTabId ∧ ixs.Nodup ∧
    ∀ i ∈ ixs, i ≤ bound

/-- Every tab's active flag agrees with the pane's active-tab pointer. -/
def paneFlagsOk (p : Pane) : Prop :=
  ∀ t ∈ p.tabs, t.isActive = decide (some t.id = p.activeTabId)

/-- The active-tab pointer is null or the id of a present tab. -/
def activeOk (p : Pane) : Prop :=
  p.activeTabId = none ∨ ∃ t ∈ p.tabs, p.activeTabId = some t.id

/-- Every buffer key is referenced by some tab of the active pane. -/
def buffersHaveTabs (bufs : List (String × BufferState)) (tabs : List Tab) : Prop :=
  ∀ k ∈ bufs.map (·.1), ∃ t ∈ tabs, t.bufferId = k

/-- Invariant maintained by every dispatch: the layout is a single leaf
whose tab ids are distinct `generateTabId` values within the counter
bound, flags agree with the active-tab pointer, and every buffer has a
referencing tab. -/
def SysInv (s : Sys) : Prop :=
  ∃ p : Pane,
    s.state.layout.root = .leaf p ∧
    tabIdsOk s.ctr.tabId p.tabs ∧
    paneFlagsOk p ∧
    buffersHaveTabs s.state.buffers p.tabs

/-- `SysInv` strengthened with the active-tab membership property; it is
maintained only by switch-safe dispatches. -/
def SysInvG (s : Sys) : Prop :=
  ∃ p : Pane,
    s.state.layout.root = .leaf p ∧
    tabIdsOk s.ctr.tabId p.tabs ∧
    paneFlagsOk p ∧
    buffersHaveTabs s.state.buffers p.tabs ∧
    activeOk p

theorem generateTabId_inj : Function.Injective generateTabId :=
  fun _ _ h => generateTabId_injective h

theorem tabIdsOk.nodup {bound : Nat} {tabs : List Tab} (h : tabIdsOk bound tabs) :
    (tabs.map (·.id)).Nodup := by
  obtain ⟨ixs, hmap, hnd, _⟩ := h
  rw [hmap]
  exact hnd.map generateTabId_inj

theorem tabIdsOk.mono {b b' : Nat} {tabs : List Tab} (h : tabIdsOk b tabs)
    (hb : b ≤ b') : tabIdsOk b' tabs := by
  obtain ⟨ixs, hmap, hnd, hle⟩ := h
  exact ⟨ixs, hmap, hnd, fun i hi => le_trans (hle i hi) hb⟩

theorem getActivePane_of_leaf {layout : PaneLayout} {p : Pane}
    (h : layout.root = .leaf p) : getActivePane layout = some p := by
  unfold getActivePane
  rw [h, findPane]

theorem updatePaneInLayout_leaf (p : Pane) (f : Pane → Pane) :
    updatePaneInLayout (.leaf p) p.id f = .leaf (f p) := by
  rw [updatePaneInLayout]
  simp

/-- Updating only the active flag of each tab keeps the tab ids. -/
theorem ids_flagUpdate (tabs : List Tab) (f : Tab → Bool) :
    (tabs.map fun t => { t with isActive := f t }).map (·.id) = tabs.map (·.id) := by
  rw [List.map_map]
  rfl

/-- Updating only the active flag of each tab keeps the buffer ids. -/
theorem bufferIds_flagUpdate (tabs : List Tab) (f : Tab → Bool) :
    (tabs.map fun t => { t with isActive := f t }).map (·.bufferId) =
      tabs.map (·.bufferId) := by
  rw [List.map_map]
  rfl

theorem filter_map_comm {α β : Type} (f : α → β) (q : β → Bool) (l : List α) :
    (l.map f).filter q = (l.filter fun a => q (f a)).map f := by
  induction l with
  | nil => rfl
  | cons a t ih =>
    by_cases h : q (f a)
    · simp [List.filter_cons, h, ih]
    · simp [List.filter_cons, h, ih]

theorem any_of_mapGet_some {β : Type} {m : List (String × β)} {k : String} {v : β}
    (h : mapGet m k = some v) : m.any (fun kv => decide (kv.1 = k)) = true := by
  unfold mapGet at h
  rcases Option.map_eq_some'.mp h with ⟨e, he, _⟩
  have hm := List.mem_of_find?_eq_some he
  have hp := List.find?_some he
  exact List.any_eq_true.mpr ⟨e, hm, hp⟩

theorem keys_mapSet_sub {β : Type} {m : List (String × β)} {kk k : String} {v : β}
    (h : k ∈ (mapSet m kk v).map (·.1)) : k ∈ m.map (·.1) ∨ k = kk := by
  rcases List.mem_map.mp h with ⟨e, he, hk⟩
  rcases mem_mapSet he with h1 | h1
  · exact Or.inl (hk ▸ List.mem_map.mpr ⟨e, h1, rfl⟩)
  · right; rw [← hk, h1]

theorem keys_mapDelete_sub {β : Type} {m : List (String × β)} {kk k : String}
    (h : k ∈ (mapDelete m kk).map (·.1)) : k ∈ m.map (·.1) ∧ k ≠ kk := by
  rcases List.mem_map.mp h with ⟨e, he, hk⟩
  rcases mem_mapDelete he with ⟨h1, h2⟩
  exact ⟨hk ▸ List.mem_map.mpr ⟨e, h1, rfl⟩, hk ▸ h2⟩

/-- The pane produced by the `SWITCH_TAB` update. -/
def switchPane (p : Pane) (tabId : String) : Pane :=
  { p with
    activeTabId := some tabId
    tabs := p.tabs.map fun t => { t with isActive := decide (t.id = tabId) } }

theorem applySwitchTab_of_leaf {state : AppState} {p : Pane}
    (hroot : state.layout.root = .leaf p) (tabId : String) :
    applySwitchTab state tabId = { state with layout := ⟨.leaf (switchPane p tabId)⟩ } := by
  unfold applySwitchTab
  rw [getActivePane_of_leaf hroot, hroot]
  dsimp only
  rw [updatePaneInLayout_leaf]
  rfl

theorem switchPane_ids (p : Pane) (tabId : String) :
    (switchPane p tabId).tabs.map (·.id) = p.tabs.map (·.id) :=
  ids_flagUpdate p.tabs _

theorem switchPane_flagsOk (p : Pane) (tabId : String) :
    paneFlagsOk (switchPane p tabId) := by
  intro t ht
  rcases List.mem_map.mp ht with ⟨t0, _, rfl⟩
  show decide (t0.id = tabId) = decide (some t0.id = some tabId)
  by_cases h : t0.id = tabId
  · simp [h]
  · simp [h]

theorem switchPane_buffersHaveTabs {bufs : List (String × BufferState)} {p : Pane}
    (h : buffersHaveTabs bufs p.tabs) (tabId : String) :
    buffersHaveTabs bufs (switchPane p tabId).tabs := by
  intro k hk
  rcases h k hk with ⟨t, ht, hb⟩
  exact ⟨{ t with isActive := decide (t.id = tabId) }, List.mem_map.mpr ⟨t, ht, rfl⟩, hb⟩

theorem switchPane_activeOk {p : Pane} {tabId : String}
    (h : tabId ∈ p.tabs.map (·.id)) : activeOk (switchPane p tabId) := by
  rcases List.mem_map.mp h with ⟨t, ht, hid⟩
  right
  exact ⟨{ t with isActive := decide (t.id = tabId) },
    List.mem_map.mpr ⟨t, ht, rfl⟩, by simp [switchPane, hid]⟩

theorem tabIdsOk.mem_bound {bound : Nat} {tabs : List Tab} (h : tabIdsOk bound tabs)
    {t : Tab} (ht : t ∈ tabs) : ∃ i, i ≤ bound ∧ t.id = generateTabId i := by
  obtain ⟨ixs, hmap, _, hle⟩ := h
  have : t.id ∈ ixs.map generateTabId := hmap ▸ List.mem_map.mpr ⟨t, ht, rfl⟩
  rcases List.mem_map.mp this with ⟨i, hi, hgen⟩
  exact ⟨i, hle i hi, hgen.symm⟩

/-- The pane produced by appending a freshly created tab (`OPEN_FILE`
creation path and `NEW_FILE`). -/
def appendPane (p : Pane) (newTab : Tab) : Pane :=
  { p with
    activeTabId := some newTab.id
    tabs := (p.tabs.map fun t => { t with isActive := false }) ++ [newTab] }

theorem appendPane_activeOk (p : Pane) (newTab : Tab) : activeOk (appendPane p newTab) := by
  unfold activeOk appendPane
  right
  refine ⟨newTab, ?_, rfl⟩
  simp

theorem sysInv_append {c : IdCounters} {st : AppState} {p : Pane}
    (hids : tabIdsOk c.tabId p.tabs)
    (hbufs : buffersHaveTabs st.buffers p.tabs)
    (newTab : Tab) (hid : newTab.id = generateTabId (c.tabId + 1))
    (hact : newTab.isActive = true)
    {c' : IdCounters} (hc' : c'.tabId = c.tabId + 1)
    {st' : AppState} (hroot' : st'.layout.root = .leaf (appendPane p newTab))
    {v : BufferState} (hb' : st'.buffers = mapSet st.buffers newTab.bufferId v) :
    SysInv ⟨c', st'⟩ := by
  unfold SysInv
  refine ⟨appendPane p newTab, hroot', ?_, ?_, ?_⟩
  · obtain ⟨ixs, hmap, hnd, hle⟩ := hids
    refine ⟨ixs ++ [c.tabId + 1], ?_, ?_, ?_⟩
    · simp only [appendPane]
      rw [List.map_append, ids_flagUpdate, List.map_append, hmap]
      simp [hid]
    · rw [List.nodup_append]
      refine ⟨hnd, List.nodup_singleton _, ?_⟩
      intro i hi hmem
      simp only [List.mem_singleton] at hmem
      have := hle i hi
      omega
    · intro i hi
      have hc2 : (⟨c', st'⟩ : Sys).ctr.tabId = c.tabId + 1 := hc'
      rcases List.mem_append.mp hi with h1 | h1
      · have := hle i h1; omega
      · simp only [List.mem_singleton] at h1; omega
  · intro t ht
    rcases List.mem_append.mp ht with h1 | h1
    · rcases List.mem_map.mp h1 with ⟨t0, ht0, rfl⟩
      show false = decide (some t0.id = some newTab.id)
      rcases hids.mem_bound ht0 with ⟨i, hle, hgen⟩
      have hne : t0.id ≠ newTab.id := by
        rw [hgen, hid]
        intro hcon
        have := generateTabId_injective hcon
        omega
      simp [hne]
    · simp only [List.mem_singleton] at h1
      rw [h1]
      simp [appendPane, hact]
  · intro k hk
    rw [hb'] at hk
    rcases keys_mapSet_sub hk with h1 | h1
    · rcases hbufs k h1 with ⟨t, ht, hbid⟩
      exact ⟨{ t with isActive := false },
        List.mem_append.mpr (Or.inl (List.mem_map.mpr ⟨t, ht, rfl⟩)), hbid⟩
    · exact ⟨newTab, List.mem_append.mpr (Or.inr (by simp)), h1.symm⟩

theorem sysInv_switchLike (tid : String) {c c' : IdCounters} {st st' : AppState} {p : Pane}
    (hids : tabIdsOk c.tabId p.tabs)
    (hbufs : buffersHaveTabs st.buffers p.tabs) (ht : c.tabId ≤ c'.tabId)
    (hroot' : st'.layout.root = .leaf (switchPane p tid))
    (hb : st'.buffers = st.buffers) :
    SysInv ⟨c', st'⟩ := by
  unfold SysInv
  refine ⟨switchPane p tid, hroot', ?_, switchPane_flagsOk p tid, ?_⟩
  · obtain ⟨ixs, hmap, hnd, hle⟩ := hids.mono ht
    exact ⟨ixs, (switchPane_ids p tid).trans hmap, hnd, hle⟩
  · rw [hb]
    exact switchPane_buffersHaveTabs hbufs tid

theorem activeOkOfLeaf_intro {st' : AppState} {X : Pane}
    (hr : st'.layout.root = .leaf X) (hX : activeOk X) :
    ∀ pN, st'.layout.root = .leaf pN → activeOk pN := by
  intro pN hpN
  rw [hr] at hpN
  injection hpN with h
  rw [← h]
  exact hX

theorem findExistingOpenTab_spec {bufs : List (String × BufferState)}
    {layout : PaneLayout} {path : String} {pn : Pane} {tb : Tab} :
    findExistingOpenTab bufs layout path = some (pn, tb) →
    getActivePane layout = some pn ∧ tb ∈ pn.tabs ∧
      ∃ e ∈ bufs, e.2.filePath = some path ∧ tb.bufferId = e.1 := by
  induction bufs with
  | nil => intro h; simp [findExistingOpenTab] at h
  | cons e rest ih =>
    intro h
    rw [findExistingOpenTab] at h
    by_cases hp : e.2.filePath = some path
    · rw [if_pos hp] at h
      rcases hap : getActivePane layout with _ | pane
      · rw [hap] at h
        dsimp only at h
        rcases ih h with ⟨h1, h2, e', he', h3, h4⟩
        rw [hap] at h1
        exact ⟨h1, h2, e', List.mem_cons_of_mem _ he', h3, h4⟩
      · rw [hap] at h
        dsimp only at h
        rcases hf : pane.tabs.find? (fun t => decide (t.bufferId = e.1)) with _ | tb0
        · rw [hf] at h
          dsimp only at h
          rcases ih h with ⟨h1, h2, e', he', h3, h4⟩
          rw [hap] at h1
          exact ⟨h1, h2, e', List.mem_cons_of_mem _ he', h3, h4⟩
        · rw [hf] at h
          dsimp only at h
          injection h with h
          injection h with hpn htb
          subst hpn; subst htb
          refine ⟨rfl, List.mem_of_find?_eq_some hf, e, List.mem_cons_self _ _, hp, ?_⟩
          have := List.find?_some hf
          simpa using this
    · rw [if_neg hp] at h
      rcases ih h with ⟨h1, h2, e', he', h3, h4⟩
      exact ⟨h1, h2, e', List.mem_cons_of_mem _ he', h3, h4⟩

theorem findExistingOpenTab_isSome {bufs : List (String × BufferState)}
    {layout : PaneLayout} {path : String} {p : Pane}
    (hap : getActivePane layout = some p)
    (hbufs : buffersHaveTabs bufs p.tabs)
    (hex : ∃ e ∈ bufs, e.2.filePath = some path) :
    ∃ pn tb, findExistingOpenTab bufs layout path = some (pn, tb) := by
  induction bufs with
  | nil => rcases hex with ⟨e, he, _⟩; cases he
  | cons e rest ih =>
    rw [findExistingOpenTab]
    by_cases hp : e.2.filePath = some path
    · rw [if_pos hp, hap]
      dsimp only
      rcases hbufs e.1 (by simp) with ⟨t, ht, hbid⟩
      have hw : ∃ t0 ∈ p.tabs, (fun t => decide (t.bufferId = e.1)) t0 = true :=
        ⟨t, ht, by simp [hbid]⟩
      rcases Option.isSome_iff_exists.mp (List.find?_isSome.mpr hw) with ⟨tb0, hf⟩
      rw [hf]
      exact ⟨p, tb0, rfl⟩
    · rw [if_neg hp]
      apply ih
      · intro k hk
        exact hbufs k (by simp [hk])
      · rcases hex with ⟨e', he', hpath⟩
        rcases List.mem_cons.mp he' with h1 | h1
        · exact absurd (h1 ▸ hpath) hp
        · exact ⟨e', h1, hpath⟩

theorem jsIndex_mem {α : Type} {l : List α} {i : Int} {x : α}
    (h : jsIndex l i = some x) : x ∈ l := by
  unfold jsIndex at h
  split at h
  · cases h
  · exact List.getElem?_mem h

/-- Active-tab membership for every leaf the layout root may be. -/
def leavesActiveOk (state : AppState) : Prop :=
  ∀ p, state.layout.root = .leaf p → activeOk p

theorem sysInv_same_layout {c c' : IdCounters} {st st' : AppState}
    (h : SysInv ⟨c, st⟩) (hl : st'.layout = st.layout)
    (hk : st'.buffers.map (·.1) = st.buffers.map (·.1))
    (ht : c.tabId ≤ c'.tabId) : SysInv ⟨c', st'⟩ := by
  obtain ⟨p, hroot, hids, hflags, hbufs⟩ := h
  exact ⟨p, by rw [hl]; exact hroot, hids.mono ht, hflags,
    fun k hk2 => hbufs k (hk ▸ hk2)⟩

/-- The pane produced by the `CLOSE_TAB` update. -/
def closePaneUpd (p : Pane) (tabId : String) (newActiveTabId : Option String) : Pane :=
  { p with
    activeTabId := newActiveTabId
    tabs := (p.tabs.filter fun t => !decide (t.id = tabId)).map
      fun t => { t with isActive := decide (some t.id = newActiveTabId) } }

theorem closePaneUpd_ids (p : Pane) (tabId : String) (na : Option String) :
    (closePaneUpd p tabId na).tabs.map (·.id) =
      (p.tabs.map (·.id)).filter fun x => !decide (x = tabId) := by
  show ((p.tabs.filter fun t => !decide (t.id = tabId)).map
      fun t => { t with isActive := decide (some t.id = na) }).map (·.id) = _
  rw [ids_flagUpdate]
  exact (filter_map_comm (·.id) (fun x => !decide (x = tabId)) p.tabs).symm

theorem sysInv_close {c : IdCounters} {st st' : AppState} {p : Pane} {tabId : String}
    {closingTab : Tab} (hct : closingTab ∈ p.tabs) (hctid : closingTab.id = tabId)
    (hids : tabIdsOk c.tabId p.tabs) (hbufs : buffersHaveTabs st.buffers p.tabs)
    (newActive : Option String)
    (hroot' : st'.layout.root = .leaf (closePaneUpd p tabId newActive))
    (hb' : st'.buffers = (if (p.tabs.filter fun t => !decide (t.id = tabId)).any
        (fun t => decide (t.bufferId = closingTab.bufferId)) then st.buffers
      else mapDelete st.buffers closingTab.bufferId)) :
    SysInv ⟨c, st'⟩ := by
  have hnd := hids.nodup
  unfold SysInv
  refine ⟨closePaneUpd p tabId newActive, hroot', ?_, ?_, ?_⟩
  · obtain ⟨ixs, hmap, hnd2, hle⟩ := hids
    refine ⟨ixs.filter fun i => !decide (generateTabId i = tabId), ?_, hnd2.filter _, ?_⟩
    · rw [closePaneUpd_ids, hmap]
      exact filter_map_comm generateTabId (fun x => !decide (x = tabId)) ixs
    · intro i hi
      exact hle i (List.mem_of_mem_filter hi)
  · intro t ht
    rcases List.mem_map.mp ht with ⟨t0, _, rfl⟩
    rfl
  · intro k hk
    rw [hb'] at hk
    have survivors : ∀ t ∈ p.tabs, t.id ≠ tabId → t.bufferId = k →
        ∃ t' ∈ (closePaneUpd p tabId newActive).tabs, t'.bufferId = k := by
      intro t ht htid hbid
      refine ⟨{ t with isActive := decide (some t.id = newActive) },
        List.mem_map.mpr ⟨t, List.mem_filter.mpr ⟨ht, by simp [htid]⟩, rfl⟩, hbid⟩
    split at hk
    · rename_i hany
      rcases hbufs k hk with ⟨t, ht, hbid⟩
      by_cases htid : t.id = tabId
      · have hteq : t = closingTab :=
          List.inj_on_of_nodup_map hnd ht hct (by rw [htid, hctid])
         
        rcases List.any_eq_true.mp hany with ⟨t2, ht2, hp2⟩
        have ht2m := List.mem_of_mem_filter ht2
        have ht2id : t2.id ≠ tabId := by
          have := (List.mem_filter.mp ht2).2
          simpa using this
        have hbid2 : t2.bufferId = k := by
          have : t2.bufferId = closingTab.bufferId := by simpa using hp2
          rw [this, ← hteq, hbid]
        exact survivors t2 ht2m ht2id hbid2
      · exact survivors t ht htid hbid
    · rename_i hany
      rcases keys_mapDelete_sub hk with ⟨hk1, hk2⟩
      rcases hbufs k hk1 with ⟨t, ht, hbid⟩
      by_cases htid : t.id = tabId
      · exfalso
        have hteq : t = closingTab :=
          List.inj_on_of_nodup_map hnd ht hct (by rw [htid, hctid])
        exact hk2 (by rw [← hbid, hteq])
      · exact survivors t ht htid hbid

theorem closePane_activeOk_keep {p : Pane} {tabId : String} {closingTab : Tab}
    (hct : closingTab ∈ p.tabs) (hctid : closingTab.id = tabId)
    (hcnact : closingTab.isActive = false) (hflags : paneFlagsOk p) (hA : activeOk p) :
    activeOk (closePaneUpd p tabId p.activeTabId) := by
  rcases hA with hA | ⟨u, hu, huid⟩
  · left; exact hA
  · have huact : u.isActive = true := by
      rw [hflags u hu, huid]; simp
    have huneq : u.id ≠ tabId := by
      intro hcon
      have : closingTab.isActive = true := by
        rw [hflags closingTab hct, huid, hctid, ← hcon]; simp
      rw [hcnact] at this
      cases this
    right
    refine ⟨{ u with isActive := decide (some u.id = p.activeTabId) }, ?_, huid⟩
    exact List.mem_map.mpr ⟨u, List.mem_filter.mpr ⟨hu, by simp [huneq]⟩, rfl⟩

theorem dispatch_preserved {s : Sys} {a : AppAction} {s' : Sys}
    (h : SysInv s) (hd : dispatch s a = some s') :
    SysInv s' ∧ (leavesActiveOk s.state → switchTargetsExist s.state a →
      leavesActiveOk s'.state) := by
  obtain ⟨p, hroot, hids, hflags, hbufs⟩ := h
  have hap : getActivePane s.state.layout = some p := getActivePane_of_leaf hroot
  have hInv : SysInv s := ⟨p, hroot, hids, hflags, hbufs⟩
  obtain ⟨c', st'⟩ := s'
  have hr : appReducer s.ctr s.state a = some (c', st') := by
    unfold dispatch at hd
    rcases hx : appReducer s.ctr s.state a with _ | cs
    · rw [hx] at hd; cases hd
    · rw [hx] at hd
      simp only [Option.map_some'] at hd
      injection hd with hd
      injection hd with h1 h2
      rw [← h1, ← h2]
  clear hd
  cases a with
  | setFocus target =>
    simp only [appReducer] at hr
    injection hr with hr
    injection hr with h1 h2
    subst h1; subst h2
    exact ⟨sysInv_same_layout hInv rfl rfl le_rfl, fun hA _ => hA⟩
  | openFile path =>
    simp only [appReducer] at hr
    split at hr
    · rename_i pane0 tb hfe
      rcases findExistingOpenTab_spec hfe with ⟨hap0, htb, -⟩
      rw [hap] at hap0
      injection hap0 with hap0
      subst hap0
      injection hr with hr
      injection hr with h1 h2
      subst h1; subst h2
      refine ⟨sysInv_switchLike tb.id hids hbufs le_rfl ?_ rfl, fun _ _ => ?_⟩
      · rw [hroot, updatePaneInLayout_leaf]
        rfl
      · intro pN hpN
        rw [hroot, updatePaneInLayout_leaf] at hpN
        injection hpN with hpN
        rw [← hpN]
        exact switchPane_activeOk (List.mem_map.mpr ⟨tb, htb, rfl⟩)
    · rw [hap] at hr
      dsimp only at hr
      injection hr with hr
      injection hr with h1 h2
      subst h1; subst h2
      refine ⟨sysInv_append hids hbufs
        ⟨generateTabId (s.ctr.tabId + 1), generateBufferId (s.ctr.bufferId + 1),
          basename path, true, false⟩ rfl rfl rfl ?_ rfl, fun _ _ => ?_⟩
      · rw [hroot, updatePaneInLayout_leaf]
        rfl
      · intro pN hpN
        rw [hroot, updatePaneInLayout_leaf] at hpN
        injection hpN with hpN
        rw [← hpN]
        exact appendPane_activeOk p _
  | saveFile bufferId =>
    simp only [appReducer] at hr
    split at hr
    · injection hr with hr
      injection hr with h1 h2
      subst h1; subst h2
      exact ⟨hInv, fun hA _ => hA⟩
    · rename_i buffer hm
      injection hr with hr
      injection hr with h1 h2
      subst h1; subst h2
      refine ⟨sysInv_same_layout hInv rfl ?_ le_rfl, fun hA _ => hA⟩
      exact keys_mapSet_of_mem (any_of_mapGet_some hm)
  | closeTab tabId =>
    simp only [appReducer] at hr
    rw [hap] at hr
    dsimp only at hr
    split at hr
    · injection hr with hr
      injection hr with h1 h2
      subst h1; subst h2
      exact ⟨hInv, fun hA _ => hA⟩
    · rename_i tabIndex hidx
      split at hr
      · exact Option.noConfusion hr
      · rename_i closingTab hget
        have hmem : closingTab ∈ p.tabs := List.getElem?_mem hget
        have hctid : closingTab.id = tabId := by
          rcases List.findIdx?_eq_some_iff_getElem.mp hidx with ⟨hlt, hpred, -⟩
          have hcg : p.tabs[tabIndex] = closingTab := by
            have := List.getElem?_eq_getElem hlt
            rw [this] at hget
            injection hget
          rw [← hcg]
          simpa using hpred
        split at hr
        · exact Option.noConfusion hr
        · rename_i newActive hna
          injection hr with hr
          injection hr with h1 h2
          subst h1; subst h2
          have hroot2 : ∀ q : Pane, q = closePaneUpd p tabId newActive →
              ({ s.state with
                buffers := if (p.tabs.filter fun t => !decide (t.id = tabId)).any
                    (fun t => decide (t.bufferId = closingTab.bufferId)) then
                  s.state.buffers
                else mapDelete s.state.buffers closingTab.bufferId
                layout := ⟨updatePaneInLayout s.state.layout.root p.id fun q =>
                  { q with
                    activeTabId := newActive
                    tabs := (p.tabs.filter fun t => !decide (t.id = tabId)).map fun t =>
                      { t with isActive := decide (some t.id = newActive) } }⟩ } :
                AppState).layout.root = .leaf q := by
            intro q hq
            subst hq
            rw [hroot, updatePaneInLayout_leaf]
            rfl
          refine ⟨sysInv_close hmem hctid hids hbufs newActive (hroot2 _ rfl) rfl,
            fun hA _ => ?_⟩
          intro pN hpN
          rw [hroot2 _ rfl] at hpN
          injection hpN with hpN
          rw [← hpN]
          -- case on how newActive was computed
          split at hna
          · split at hna
            · rcases Option.map_eq_some'.mp hna with ⟨tstar, hji, hna2⟩
              rw [← hna2]
              right
              refine ⟨{ tstar with isActive := decide (some tstar.id = some tstar.id) }, ?_, rfl⟩
              exact List.mem_map.mpr ⟨tstar, jsIndex_mem hji, rfl⟩
            · rename_i hnact
              injection hna with hna
              rw [← hna]
              apply closePane_activeOk_keep hmem hctid _ hflags (hA p hroot)
              simpa using hnact
          · injection hna with hna
            rw [← hna]
            left
            rfl
  | newFile =>
    simp only [appReducer] at hr
    rw [hap] at hr
    dsimp only at hr
    injection hr with hr
    injection hr with h1 h2
    subst h1; subst h2
    refine ⟨sysInv_append hids hbufs
      ⟨generateTabId (s.ctr.tabId + 1), generateBufferId (s.ctr.bufferId + 1),
        "Untitled", true, false⟩ rfl rfl rfl ?_ rfl, fun _ _ => ?_⟩
    · rw [hroot, updatePaneInLayout_leaf]
      rfl
    · intro pN hpN
      rw [hroot, updatePaneInLayout_leaf] at hpN
      injection hpN with hpN
      rw [← hpN]
      exact appendPane_activeOk p _
  | setBufferContent bufferId content =>
    simp only [appReducer] at hr
    split at hr
    · injection hr with hr
      injection hr with h1 h2
      subst h1; subst h2
      exact ⟨hInv, fun hA _ => hA⟩
    · rename_i buffer hm
      injection hr with hr
      injection hr with h1 h2
      subst h1; subst h2
      refine ⟨sysInv_same_layout hInv rfl ?_ le_rfl, fun hA _ => hA⟩
      exact keys_mapSet_of_mem (any_of_mapGet_some hm)
  | setCursor bufferId position =>
    simp only [appReducer] at hr
    split at hr
    · injection hr with hr
      injection hr with h1 h2
      subst h1; subst h2
      exact ⟨hInv, fun hA _ => hA⟩
    · rename_i buffer hm
      injection hr with hr
      injection hr with h1 h2
      subst h1; subst h2
      refine ⟨sysInv_same_layout hInv rfl ?_ le_rfl, fun hA _ => hA⟩
      exact keys_mapSet_of_mem (any_of_mapGet_some hm)
  | setSelection bufferId selection =>
    simp only [appReducer] at hr
    split at hr
    · injection hr with hr
      injection hr with h1 h2
      subst h1; subst h2
      exact ⟨hInv, fun hA _ => hA⟩
    · rename_i buffer hm
      injection hr with hr
      injection hr with h1 h2
      subst h1; subst h2
      refine ⟨sysInv_same_layout hInv rfl ?_ le_rfl, fun hA _ => hA⟩
      exact keys_mapSet_of_mem (any_of_mapGet_some hm)
  | switchTab tabId =>
    simp only [appReducer] at hr
    injection hr with hr
    injection hr with h1 h2
    subst h1; subst h2
    have hroot2 : (applySwitchTab s.state tabId).layout.root =
        .leaf (switchPane p tabId) := by
      rw [applySwitchTab_of_leaf hroot]
    refine ⟨sysInv_switchLike tabId hids hbufs le_rfl hroot2 ?_, fun hA hgood => ?_⟩
    · rw [applySwitchTab_of_leaf hroot]
    · rcases hgood tabId rfl with ⟨p0, hp0, hmem⟩
      rw [hap] at hp0
      injection hp0 with hp0
      subst hp0
      exact activeOkOfLeaf_intro hroot2 (switchPane_activeOk hmem)
  | nextTab =>
    simp only [appReducer] at hr
    rw [hap] at hr
    dsimp only at hr
    split at hr
    · injection hr with hr
      injection hr with h1 h2
      subst h1; subst h2
      exact ⟨hInv, fun hA _ => hA⟩
    · split at hr
      · exact Option.noConfusion hr
      · rename_i nextTab hji
        injection hr with hr
        injection hr with h1 h2
        subst h1; subst h2
        have hroot2 : (applySwitchTab s.state nextTab.id).layout.root =
            .leaf (switchPane p nextTab.id) := by
          rw [applySwitchTab_of_leaf hroot]
        have hmem : nextTab.id ∈ p.tabs.map (·.id) :=
          List.mem_map.mpr ⟨nextTab, jsIndex_mem hji, rfl⟩
        refine ⟨sysInv_switchLike nextTab.id hids hbufs le_rfl hroot2 ?_, fun _ _ => ?_⟩
        · rw [applySwitchTab_of_leaf hroot]
        · exact activeOkOfLeaf_intro hroot2 (switchPane_activeOk hmem)
  | prevTab =>
    simp only [appReducer] at hr
    rw [hap] at hr
    dsimp only at hr
    split at hr
    · injection hr with hr
      injection hr with h1 h2
      subst h1; subst h2
      exact ⟨hInv, fun hA _ => hA⟩
    · split at hr
      · exact Option.noConfusion hr
      · rename_i prevTab hji
        injection hr with hr
        injection hr with h1 h2
        subst h1; subst h2
        have hroot2 : (applySwitchTab s.state prevTab.id).layout.root =
            .leaf (switchPane p prevTab.id) := by
          rw [applySwitchTab_of_leaf hroot]
        have hmem : prevTab.id ∈ p.tabs.map (·.id) :=
          List.mem_map.mpr ⟨prevTab, jsIndex_mem hji, rfl⟩
        refine ⟨sysInv_switchLike prevTab.id hids hbufs le_rfl hroot2 ?_, fun _ _ => ?_⟩
        · rw [applySwitchTab_of_leaf hroot]
        · exact activeOkOfLeaf_intro hroot2 (switchPane_activeOk hmem)
  | openCommandLine =>
    simp only [appReducer] at hr
    injection hr with hr
    injection hr with h1 h2
    subst h1; subst h2
    exact ⟨sysInv_same_layout hInv rfl rfl le_rfl, fun hA _ => hA⟩
  | closeCommandLine =>
    simp only [appReducer] at hr
    injection hr with hr
    injection hr with h1 h2
    subst h1; subst h2
    exact ⟨sysInv_same_layout hInv rfl rfl le_rfl, fun hA _ => hA⟩
  | setCommandLineValue value =>
    simp only [appReducer] at hr
    injection hr with hr
    injection hr with h1 h2
    subst h1; subst h2
    exact ⟨sysInv_same_layout hInv rfl rfl le_rfl, fun hA _ => hA⟩
  | executeCommand command =>
    simp only [appReducer] at hr
    injection hr with hr
    injection hr with h1 h2
    subst h1; subst h2
    exact ⟨sysInv_same_layout hInv rfl rfl le_rfl, fun hA _ => hA⟩
  | openPalette =>
    simp only [appReducer] at hr
    injection hr with hr
    injection hr with h1 h2
    subst h1; subst h2
    exact ⟨sysInv_same_layout hInv rfl rfl le_rfl, fun hA _ => hA⟩
  | closePalette =>
    simp only [appReducer] at hr
    injection hr with hr
    injection hr with h1 h2
    subst h1; subst h2
    exact ⟨sysInv_same_layout hInv rfl rfl le_rfl, fun hA _ => hA⟩
  | setPaletteQuery query =>
    simp only [appReducer] at hr
    injection hr with hr
    injection hr with h1 h2
    subst h1; subst h2
    exact ⟨sysInv_same_layout hInv rfl rfl le_rfl, fun hA _ => hA⟩
  | setTheme themeId =>
    simp only [appReducer] at hr
    split at hr
    all_goals
      injection hr with hr
      injection hr with h1 h2
      subst h1; subst h2
      exact ⟨sysInv_same_layout hInv rfl rfl le_rfl, fun hA _ => hA⟩
  | toggleTheme =>
    simp only [appReducer] at hr
    split at hr
    · exact Option.noConfusion hr
    · injection hr with hr
      injection hr with h1 h2
      subst h1; subst h2
      exact ⟨sysInv_same_layout hInv rfl rfl le_rfl, fun hA _ => hA⟩
  | openTerminal =>
    simp only [appReducer] at hr
    injection hr with hr
    injection hr with h1 h2
    subst h1; subst h2
    exact ⟨sysInv_same_layout hInv rfl rfl le_rfl, fun hA _ => hA⟩
  | closeTerminal terminalId =>
    simp only [appReducer] at hr
    split at hr
    · split at hr
      all_goals
        injection hr with hr
        injection hr with h1 h2
        subst h1; subst h2
        exact ⟨sysInv_same_layout hInv rfl rfl le_rfl, fun hA _ => hA⟩
    · injection hr with hr
      injection hr with h1 h2
      subst h1; subst h2
      exact ⟨sysInv_same_layout hInv rfl rfl le_rfl, fun hA _ => hA⟩
  | focusTerminal terminalId =>
    simp only [appReducer] at hr
    injection hr with hr
    injection hr with h1 h2
    subst h1; subst h2
    exact ⟨sysInv_same_layout hInv rfl rfl le_rfl, fun hA _ => hA⟩
  | setWorkspace path =>
    simp only [appReducer] at hr
    injection hr with hr
    injection hr with h1 h2
    subst h1; subst h2
    exact ⟨sysInv_same_layout hInv rfl rfl le_rfl, fun hA _ => hA⟩
  | setDirectoryTree tree =>
    simp only [appReducer] at hr
    injection hr with hr
    injection hr with h1 h2
    subst h1; subst h2
    exact ⟨hInv, fun hA _ => hA⟩
  | loadDirectoryChildren path children =>
    simp only [appReducer] at hr
    injection hr with hr
    injection hr with h1 h2
    subst h1; subst h2
    exact ⟨hInv, fun hA _ => hA⟩
  | refreshTree =>
    simp only [appReducer] at hr
    injection hr with hr
    injection hr with h1 h2
    subst h1; subst h2
    exact ⟨hInv, fun hA _ => hA⟩
  | toggleDirectory path =>
    simp only [appReducer] at hr
    split at hr
    all_goals
      injection hr with hr
      injection hr with h1 h2
      subst h1; subst h2
      exact ⟨sysInv_same_layout hInv rfl rfl le_rfl, fun hA _ => hA⟩
  | splitPane direction =>
    simp only [appReducer] at hr
    injection hr with hr
    injection hr with h1 h2
    subst h1; subst h2
    exact ⟨hInv, fun hA _ => hA⟩
  | closePane paneId =>
    simp only [appReducer] at hr
    injection hr with hr
    injection hr with h1 h2
    subst h1; subst h2
    exact ⟨hInv, fun hA _ => hA⟩
  | resizePane paneId size =>
    simp only [appReducer] at hr
    injection hr with hr
    injection hr with h1 h2
    subst h1; subst h2
    exact ⟨hInv, fun hA _ => hA⟩

theorem sysInv_initial : SysInv initialSys := by
  unfold SysInv
  refine ⟨createInitialPane, rfl, ⟨[], rfl, List.nodup_nil, by simp⟩, ?_, ?_⟩
  · intro t ht
    simp [createInitialPane] at ht
  · intro k hk
    simp [initialSys, createInitialState] at hk

theorem leavesActiveOk_initial : leavesActiveOk initialSys.state := by
  intro p hp
  injection hp with hp
  rw [← hp]
  left
  rfl

/-- Every reachable store satisfies the structural invariant. -/
theorem reachable_inv {s : Sys} (h : Reachable s) : SysInv s := by
  induction h with
  | init => exact sysInv_initial
  | step _ hd ih => exact (dispatch_preserved ih hd).1

/-- Every store reachable through switch-safe actions additionally keeps
the active-tab pointer pointing at a present tab. -/
theorem reachableGood_inv {s : Sys} (h : ReachableGood s) :
    SysInv s ∧ leavesActiveOk s.state := by
  induction h with
  | init => exact ⟨sysInv_initial, leavesActiveOk_initial⟩
  | step _ hgood hd ih =>
    rcases ih with ⟨hi, hl⟩
    rcases dispatch_preserved hi hd with ⟨hi2, himp⟩
    exact ⟨hi2, himp hl hgood⟩

/-! ## Concrete dispatch traces used by the claim theorems -/

/-- Store after `OPEN_FILE "/a.ts"` from the initial store. -/
def sysA : Sys := (dispatch initialSys (.openFile "/a.ts")).getD initialSys

/-- Store after a `SWITCH_TAB` naming an id that no tab has. -/
def sysB : Sys := (dispatch sysA (.switchTab "zzz")).getD sysA

/-- Store after `SET_BUFFER_CONTENT "buffer-1" "b"` in `sysA`. -/
def sysC : Sys := (dispatch sysA (.setBufferContent "buffer-1" "b")).getD sysA

/-- Store after repeating the same `SET_BUFFER_CONTENT` in `sysC`. -/
def sysD : Sys := (dispatch sysC (.setBufferContent "buffer-1" "b")).getD sysC

/-- Store after `OPEN_FILE "/b.ts"` in `sysA` (two tabs, second active). -/
def sysE : Sys := (dispatch sysA (.openFile "/b.ts")).getD sysA

theorem dispatch_to_sysA : dispatch initialSys (.openFile "/a.ts") = some sysA := rfl

theorem dispatch_to_sysB : dispatch sysA (.switchTab "zzz") = some sysB := rfl

theorem dispatch_to_sysC : dispatch sysA (.setBufferContent "buffer-1" "b") = some sysC := rfl

theorem dispatch_to_sysD : dispatch sysC (.setBufferContent "buffer-1" "b") = some sysD := rfl

theorem dispatch_to_sysE : dispatch sysA (.openFile "/b.ts") = some sysE := rfl

theorem reachable_sysA : Reachable sysA :=
  Reachable.step Reachable.init dispatch_to_sysA

theorem reachable_sysB : Reachable sysB :=
  Reachable.step reachable_sysA dispatch_to_sysB

theorem reachable_sysC : Reachable sysC :=
  Reachable.step reachable_sysA dispatch_to_sysC

theorem reachable_sysD : Reachable sysD :=
  Reachable.step reachable_sysC dispatch_to_sysD

theorem reachable_sysE : Reachable sysE :=
  Reachable.step reachable_sysA dispatch_to_sysE

theorem reachableGood_sysA : ReachableGood sysA :=
  ReachableGood.step ReachableGood.init (fun _ h => AppAction.noConfusion h) dispatch_to_sysA

/-! ## Claim theorems -/

/-- C1 (counterexample): the invariant claimed for all dispatched action
sequences fails on the code.  From the initial store, `OPEN_FILE "/a.ts"`
followed by `SWITCH_TAB "zzz"` (an id no tab has) reaches a state whose
only pane has `activeTabId = some "zzz"` while its tab list contains only
`"tab-1"`: the pointer is neither null nor the id of a present tab. -/
theorem C1_counterexample :
    Reachable sysB ∧
    paneActiveTabId sysB.state = some "zzz" ∧
    (paneTabs sysB.state).map (·.id) = ["tab-1"] ∧
    ¬(paneActiveTabId sysB.state = none ∨
      ∃ t ∈ paneTabs sysB.state, paneActiveTabId sysB.state = some t.id) :=
  ⟨reachable_sysB, by decide, by decide, by decide⟩

/-- C1 (amended): for every state reachable from the initial state by
dispatched actions in which every `SWITCH_TAB` names a tab present in the
active pane's tab list at dispatch time, every pane in the layout has
`activeTabId` either null or equal to the id of a present tab, and exactly
one tab has its active flag set iff `activeTabId` is non-null. -/
theorem C1_active_tab_invariant {s : Sys} (h : ReachableGood s) :
    ∀ p ∈ panesOf s.state.layout.root,
      (p.activeTabId = none ∨ ∃ t ∈ p.tabs, p.activeTabId = some t.id) ∧
      (p.tabs.countP (·.isActive) = 1 ↔ p.activeTabId ≠ none) := by
  rcases reachableGood_inv h with ⟨⟨p0, hroot, hids, hflags, _⟩, hleaves⟩
  intro p hp
  rw [hroot] at hp
  rw [panesOf] at hp
  simp only [List.mem_singleton] at hp
  subst hp
  have hN := hids.nodup
  have hA := hleaves p hroot
  refine ⟨hA, ?_, ?_⟩
  · intro h1 hnone
    rw [List.countP_eq_zero.mpr ?_] at h1
    · cases h1
    · intro t ht
      rw [hflags t ht, hnone]
      simp
  · intro hnn
    rcases hA with hA | ⟨u, hu, huid⟩
    · exact absurd hA hnn
    · have step1 : p.tabs.countP (·.isActive) =
          p.tabs.countP (fun t => decide (t.id = u.id)) := by
        apply List.countP_congr
        intro t ht
        rw [hflags t ht, huid]
        by_cases hc : t.id = u.id
        · simp [hc]
        · simp [hc]
      have step2 : p.tabs.countP (fun t => decide (t.id = u.id)) =
          (p.tabs.map (·.id)).count u.id := by
        rw [List.count, List.countP_map]
        apply List.countP_congr
        intro t _
        by_cases hc : t.id = u.id
        · simp [hc]
        · simp [hc]
      rw [step1, step2]
      exact List.count_eq_one_of_mem hN (List.mem_map.mpr ⟨u, hu, rfl⟩)

/-- The single editor pane of `sysA` (after one `OPEN_FILE "/a.ts"`). -/
def paneA : Pane :=
  { id := "main-pane", type := .editor,
    tabs := [⟨"tab-1", "buffer-1", "a.ts", true, false⟩],
    activeTabId := some "tab-1", size := 100 }

/-- C1 (witness): the amended invariant instantiated at the store reached
by one good `OPEN_FILE` dispatch, at its single editor pane. -/
theorem C1_active_tab_invariant_witness :
    (paneA.activeTabId = none ∨ ∃ t ∈ paneA.tabs, paneA.activeTabId = some t.id) ∧
    (paneA.tabs.countP (·.isActive) = 1 ↔ paneA.activeTabId ≠ none) :=
  C1_active_tab_invariant reachableGood_sysA paneA (by decide)

/-- C2 (code bug): the transition function is not total.  In the reachable
store `sysB` (tab list `["tab-1"]`, no tab marked active after
`SWITCH_TAB "zzz"`), dispatching `PREV_TAB` evaluates
`pane.tabs[-2]!.id` — `findIndex` returns `-1`, the branch computes
index `-2`, the access yields `undefined`, and the `.id` read throws a
`TypeError` (embedded as `none`) instead of returning a state. -/
theorem C2_prevTab_crash :
    Reachable sysB ∧ dispatch sysB .prevTab = none :=
  ⟨reachable_sysB, rfl⟩

/-- C3 (counterexample): `SWITCH_TAB` with an unknown `tabId` is not a
no-op: from `sysA` (active tab `"tab-1"`), dispatching
`SWITCH_TAB "zzz"` yields a state whose active-tab pointer changed to
`some "zzz"`. -/
theorem C3_counterexample :
    Reachable sysA ∧
    paneActiveTabId sysA.state = some "tab-1" ∧
    dispatch sysA (.switchTab "zzz") = some sysB ∧
    paneActiveTabId sysB.state = some "zzz" ∧
    paneActiveTabId sysB.state ≠ paneActiveTabId sysA.state :=
  ⟨reachable_sysA, by decide, dispatch_to_sysB, by decide, by decide⟩

/-- C3 (amended): actions referencing an unknown buffer id (`SAVE_FILE`,
`SET_BUFFER_CONTENT`, `SET_CURSOR`, `SET_SELECTION`) and `CLOSE_TAB` with
an unknown tab id return the state unchanged without raising; but
`SWITCH_TAB` with an unknown tab id is not a no-op: it keeps the counters
and rewrites the active pane, setting `activeTabId` to the unknown id and
clearing every tab's active flag. -/
theorem C3_unknown_id_actions {s : Sys} {p : Pane} (bid tid content : String)
    (pos : CursorPosition) (sel : Option Selection)
    (hb : mapGet s.state.buffers bid = none)
    (hroot : s.state.layout.root = .leaf p)
    (ht : tid ∉ p.tabs.map (·.id)) :
    dispatch s (.saveFile bid) = some s ∧
    dispatch s (.setBufferContent bid content) = some s ∧
    dispatch s (.setCursor bid pos) = some s ∧
    dispatch s (.setSelection bid sel) = some s ∧
    dispatch s (.closeTab tid) = some s ∧
    ∃ s', dispatch s (.switchTab tid) = some s' ∧ s'.ctr = s.ctr ∧
      paneActiveTabId s'.state = some tid ∧
      ∀ t ∈ paneTabs s'.state, t.isActive = false := by
  have hidx : p.tabs.findIdx? (fun t => decide (t.id = tid)) = none := by
    rw [List.findIdx?_eq_none_iff]
    intro t htm
    simp only [decide_eq_false_iff_not]
    intro hc
    exact ht (List.mem_map.mpr ⟨t, htm, hc⟩)
  refine ⟨?_, ?_, ?_, ?_, ?_, ?_⟩
  · unfold dispatch
    simp only [appReducer]
    rw [hb]
    rfl
  · unfold dispatch
    simp only [appReducer]
    rw [hb]
    rfl
  · unfold dispatch
    simp only [appReducer]
    rw [hb]
    rfl
  · unfold dispatch
    simp only [appReducer]
    rw [hb]
    rfl
  · unfold dispatch
    simp only [appReducer]
    rw [getActivePane_of_leaf hroot]
    dsimp only
    rw [hidx]
    rfl
  · refine ⟨⟨s.ctr, applySwitchTab s.state tid⟩, rfl, rfl, ?_, ?_⟩
    · unfold paneActiveTabId
      rw [applySwitchTab_of_leaf hroot]
      rw [getActivePane_of_leaf (by rfl : (⟨.leaf (switchPane p tid)⟩ : PaneLayout).root = _)]
      rfl
    · intro t htm
      unfold paneTabs at htm
      rw [applySwitchTab_of_leaf hroot] at htm
      rw [getActivePane_of_leaf (by rfl : (⟨.leaf (switchPane p tid)⟩ : PaneLayout).root = _)] at htm
      dsimp only at htm
      rcases List.mem_map.mp htm with ⟨t0, ht0, rfl⟩
      have : t0.id ≠ tid := fun hc => ht (List.mem_map.mpr ⟨t0, ht0, hc⟩)
      simp [this]

/-- C3 (witness): the amended statement instantiated at `sysA` with the
unknown buffer id `"nope"` and unknown tab id `"zzz"`. -/
theorem C3_unknown_id_actions_witness :
    mapGet sysA.state.buffers "nope" = none ∧
    ("zzz" ∉ (paneTabs sysA.state).map (·.id)) ∧
    (dispatch sysA (.saveFile "nope") = some sysA ∧
     dispatch sysA (.setBufferContent "nope" "x") = some sysA ∧
     dispatch sysA (.setCursor "nope" ⟨0, 0, 0⟩) = some sysA ∧
     dispatch sysA (.setSelection "nope" none) = some sysA ∧
     dispatch sysA (.closeTab "zzz") = some sysA ∧
     ∃ s', dispatch sysA (.switchTab "zzz") = some s' ∧ s'.ctr = sysA.ctr ∧
       paneActiveTabId s'.state = some "zzz" ∧
       ∀ t ∈ paneTabs s'.state, t.isActive = false) :=
  ⟨by decide, by decide,
    C3_unknown_id_actions "nope" "zzz" "x" ⟨0, 0, 0⟩ none (by decide) rfl (by decide)⟩

theorem mapGet_mapSet_self {β : Type} (m : List (String × β)) (k : String) (v : β) :
    mapGet (mapSet m k v) k = some v := by
  unfold mapSet
  split
  · rename_i hany
    induction m with
    | nil => simp at hany
    | cons e rest ih =>
      rw [List.map_cons]
      by_cases he : e.1 = k
      · rw [if_pos he]
        unfold mapGet
        rw [List.find?_cons_of_pos _ (by simp)]
        rfl
      · rw [if_neg he]
        unfold mapGet
        rw [List.find?_cons_of_neg _ (by simp [he])]
        have hrest : rest.any (fun kv => decide (kv.1 = k)) = true := by
          rcases List.any_eq_true.mp hany with ⟨x, hx, hpx⟩
          rcases List.mem_cons.mp hx with h1 | h1
          · exfalso; apply he; rw [h1] at hpx; simpa using hpx
          · exact List.any_eq_true.mpr ⟨x, h1, hpx⟩
        exact ih hrest
  · rename_i hany
    unfold mapGet
    rw [List.find?_append]
    have h1 : m.find? (fun kv => decide (kv.1 = k)) = none := by
      rw [List.find?_eq_none]
      intro x hx
      simp only [Bool.not_eq_true, decide_eq_false_iff_not]
      intro hc
      exact hany (List.any_eq_true.mpr ⟨x, hx, by simp [hc]⟩)
    rw [h1]
    simp

/-- C4 (counterexample): the dirty flag is recomputed against the buffer's
current content, not the last-saved/loaded value.  The buffer of `sysA`
was created by `OPEN_FILE` with loaded placeholder content `""` and no
`SAVE_FILE` is ever dispatched; after `SET_BUFFER_CONTENT "buffer-1" "b"`
the flag is `true`, and dispatching the identical `SET_BUFFER_CONTENT`
again makes the flag `false` although the content `"b"` still differs
from the last loaded value `""`. -/
theorem C4_counterexample :
    Reachable sysD ∧
    (mapGet sysC.state.buffers "buffer-1").map (·.isDirty) = some true ∧
    (mapGet sysC.state.buffers "buffer-1").map (·.content) = some "b" ∧
    dispatch sysC (.setBufferContent "buffer-1" "b") = some sysD ∧
    (mapGet sysD.state.buffers "buffer-1").map (·.isDirty) = some false ∧
    (mapGet sysD.state.buffers "buffer-1").map (·.content) = some "b" ∧
    ("b" : String) ≠ "" :=
  ⟨reachable_sysD, by decide, by decide, dispatch_to_sysD, by decide, by decide, by decide⟩

/-- C4 (amended): for every buffer present in the state,
`SET_BUFFER_CONTENT` stores the new content and sets `isDirty` to
`newContent ≠ currentContent` — the comparison is with the buffer's
current content, not the last-saved/loaded value.  In particular, setting
the content to the value the buffer already holds while the flag is false
leaves the buffer (and its flag) unchanged. -/
theorem C4_dirty_recompute {s : Sys} {bid : String} (content : String)
    {buf : BufferState} (hb : mapGet s.state.buffers bid = some buf) :
    ∃ s', dispatch s (.setBufferContent bid content) = some s' ∧ s'.ctr = s.ctr ∧
      mapGet s'.state.buffers bid =
        some { buf with content := content, isDirty := decide (buf.content ≠ content) } ∧
      (buf.content = content → buf.isDirty = false →
        mapGet s'.state.buffers bid = some buf) := by
  refine ⟨⟨s.ctr, { s.state with
      buffers := mapSet s.state.buffers bid
        { buf with content := content, isDirty := decide (buf.content ≠ content) } }⟩,
    ?_, rfl, ?_, ?_⟩
  · unfold dispatch
    simp only [appReducer]
    rw [hb]
    rfl
  · apply mapGet_mapSet_self
  · intro hsame hclean
    rw [mapGet_mapSet_self]
    rw [← hsame]
    have : decide (buf.content ≠ buf.content) = buf.isDirty := by
      rw [hclean]; simp
    rw [this]

/-- C4 (witness): the amended statement instantiated at `sysA`, setting
the buffer's content to the value it already holds (`""`). -/
theorem C4_dirty_recompute_witness :
    mapGet sysA.state.buffers "buffer-1" = some
      { id := "buffer-1", filePath := some "/a.ts", content := "", isDirty := false
        language := some "typescript", cursorPosition := ⟨0, 0, 0⟩, selection := none } ∧
    ∃ s', dispatch sysA (.setBufferContent "buffer-1" "") = some s' ∧ s'.ctr = sysA.ctr ∧
      mapGet s'.state.buffers "buffer-1" = some
        { id := "buffer-1", filePath := some "/a.ts", content := "", isDirty := false
          language := some "typescript", cursorPosition := ⟨0, 0, 0⟩, selection := none } ∧
      (("" : String) = "" → false = false →
        mapGet s'.state.buffers "buffer-1" = some
          { id := "buffer-1", filePath := some "/a.ts", content := "", isDirty := false
            language := some "typescript", cursorPosition := ⟨0, 0, 0⟩, selection := none }) :=
  ⟨by decide, @C4_dirty_recompute sysA "buffer-1" ""
    { id := "buffer-1", filePath := some "/a.ts", content := "", isDirty := false
      language := some "typescript", cursorPosition := ⟨0, 0, 0⟩, selection := none }
    (by decide)⟩

/-- C6: in every reachable state, dispatching `OPEN_FILE` for a path some
buffer already has leaves the buffer table untouched (so no new buffer)
and the tab count unchanged (so no new tab), switches the active pane's
active tab to a tab referencing a buffer with that path, and sets focus to
the editor. -/
theorem C6_open_existing_path {s : Sys} (hR : Reachable s) (P : String)
    (hP : ∃ e ∈ s.state.buffers, e.2.filePath = some P) :
    ∃ s', dispatch s (.openFile P) = some s' ∧
      s'.ctr = s.ctr ∧
      s'.state.buffers = s.state.buffers ∧
      (paneTabs s'.state).length = (paneTabs s.state).length ∧
      s'.state.focusTarget = .editor ∧
      ∃ t ∈ paneTabs s'.state, paneActiveTabId s'.state = some t.id ∧
        ∃ e ∈ s.state.buffers, e.1 = t.bufferId ∧ e.2.filePath = some P := by
  rcases reachable_inv hR with ⟨p, hroot, _, _, hbufs⟩
  have hap : getActivePane s.state.layout = some p := getActivePane_of_leaf hroot
  rcases findExistingOpenTab_isSome hap hbufs hP with ⟨pn, tb, hfe⟩
  rcases findExistingOpenTab_spec hfe with ⟨hap0, htb, e, he, hpath, hbid⟩
  rw [hap] at hap0
  injection hap0 with hap0
  subst hap0
  refine ⟨⟨s.ctr, { s.state with
      layout := ⟨updatePaneInLayout s.state.layout.root p.id fun q =>
        { q with
          activeTabId := some tb.id
          tabs := q.tabs.map fun t => { t with isActive := decide (t.id = tb.id) } }⟩
      focusTarget := .editor }⟩, ?_, rfl, rfl, ?_, rfl, ?_⟩
  · unfold dispatch
    simp only [appReducer]
    rw [hfe]
    rfl
  · unfold paneTabs
    rw [hap, hroot, updatePaneInLayout_leaf]
    rw [getActivePane_of_leaf (by rfl : (⟨.leaf _⟩ : PaneLayout).root = .leaf _)]
    simp
  · refine ⟨{ tb with isActive := decide (tb.id = tb.id) }, ?_, ?_, e, he, hbid.symm, hpath⟩
    · unfold paneTabs
      rw [hroot, updatePaneInLayout_leaf]
      rw [getActivePane_of_leaf (by rfl : (⟨.leaf _⟩ : PaneLayout).root = .leaf _)]
      exact List.mem_map.mpr ⟨tb, htb, rfl⟩
    · unfold paneActiveTabId
      rw [hroot, updatePaneInLayout_leaf]
      rw [getActivePane_of_leaf (by rfl : (⟨.leaf _⟩ : PaneLayout).root = .leaf _)]

/-- C6 (witness): opening `"/a.ts"` a second time in `sysA`. -/
theorem C6_open_existing_path_witness :
    (∃ e ∈ sysA.state.buffers, e.2.filePath = some "/a.ts") ∧
    ∃ s', dispatch sysA (.openFile "/a.ts") = some s' ∧
      s'.ctr = sysA.ctr ∧
      s'.state.buffers = sysA.state.buffers ∧
      (paneTabs s'.state).length = (paneTabs sysA.state).length ∧
      s'.state.focusTarget = .editor ∧
      ∃ t ∈ paneTabs s'.state, paneActiveTabId s'.state = some t.id ∧
        ∃ e ∈ sysA.state.buffers, e.1 = t.bufferId ∧ e.2.filePath = some "/a.ts" :=
  ⟨by decide, C6_open_existing_path reachable_sysA "/a.ts" (by decide)⟩

/-- C8: command-line parsing trims the input, strips one optional leading
`:` sentinel, splits on whitespace runs, matches the command word
case-insensitively against the alias table, and reports an unmatched word
as a non-fatal unknown command that runs nothing: `" :w "` resolves to
`file.save` with no arguments, `"open /tmp/x"` to `file.open` with
`["/tmp/x"]`, `":W"` to `file.save` (case-insensitive), only one sentinel
is stripped (`"::w"` is unknown), and `"bogus"` is an unknown-command
error. -/
theorem C8_command_line_parsing :
    executeCommandLine " :w " = .run "file.save" [] ∧
    executeCommandLine "open /tmp/x" = .run "file.open" ["/tmp/x"] ∧
    executeCommandLine ":W" = .run "file.save" [] ∧
    executeCommandLine "::w" = .unknownCommand ":w" ∧
    executeCommandLine "bogus" = .unknownCommand "bogus" := by
  refine ⟨by decide, by decide, by decide, by decide, by decide⟩

/-- C9: for every handle returned by `spawnPty` and all `cols`/`rows`
arguments, `resize` is a safe no-op: it is a total function (the source
body is empty, nothing can throw) and it returns the handle's observable
state — registered data/exit callbacks, written input, kill status —
completely unchanged. -/
theorem C9_pty_resize_noop {κ : Type} (s : PtyHandleState κ) (cols rows : Nat) :
    ptyResize s cols rows = s := rfl

/-- C10: dispatching `SET_THEME` with a `themeId` matching no theme in the
static table returns the state completely unchanged (same counters, same
state, every field included); a `themeId` that is present replaces exactly
the theme. -/
theorem C10_setTheme_unknown {s : Sys} (themeId : String) :
    (defaultThemes.find? (fun t => decide (t.id = themeId)) = none →
      dispatch s (.setTheme themeId) = some s) ∧
    (∀ th, defaultThemes.find? (fun t => decide (t.id = themeId)) = some th →
      dispatch s (.setTheme themeId) = some ⟨s.ctr, { s.state with theme := th }⟩) := by
  constructor
  · intro h
    unfold dispatch
    simp only [appReducer]
    rw [h]
    rfl
  · intro th h
    unfold dispatch
    simp only [appReducer]
    rw [h]
    rfl

/-- C10 (witness): the unknown id `"nope"` keeps the initial store
unchanged; the known id `"dracula"` replaces exactly the theme. -/
theorem C10_setTheme_unknown_witness :
    (defaultThemes.find? (fun t => decide (t.id = "nope")) = none ∧
      dispatch initialSys (.setTheme "nope") = some initialSys) ∧
    (defaultThemes.find? (fun t => decide (t.id = "dracula")) = some dracula ∧
      dispatch initialSys (.setTheme "dracula") =
        some ⟨initialSys.ctr, { initialSys.state with theme := dracula }⟩) :=
  ⟨⟨by decide, (C10_setTheme_unknown "nope").1 (by decide)⟩,
   ⟨by decide, (C10_setTheme_unknown "dracula").2 dracula (by decide)⟩⟩

theorem mapGet_mapDelete_self {β : Type} (m : List (String × β)) (k : String) :
    mapGet (mapDelete m k) k = none := by
  rw [mapGet_eq_none_iff]
  intro e he
  exact (mem_mapDelete he).2

/-- C5: dispatching `CLOSE_TAB` for a tab `T` present in the active pane
removes `T` from the pane's tab list (order preserved); if `T` was the
last tab referencing its buffer, the buffer is removed from the buffer
table in the same transition; if `T` was the active tab and other tabs
remain, the new active tab is the one now at index
`min (T's former index) (new tab count - 1)`; if `T` was not active, the
previously active tab stays active; and if the pane becomes empty,
`activeTabId` becomes null. -/
theorem C5_closeTab {s : Sys} {p : Pane} {T : Tab} {i : Nat}
    (hroot : s.state.layout.root = .leaf p)
    (hF : paneFlagsOk p)
    (hM : activeOk p)
    (hidx : p.tabs.findIdx? (fun t => decide (t.id = T.id)) = some i)
    (hTi : p.tabs[i]? = some T) :
    ∃ s', dispatch s (.closeTab T.id) = some s' ∧
      s'.ctr = s.ctr ∧
      (paneTabs s'.state).map (·.id) =
        (p.tabs.map (·.id)).filter (fun x => !decide (x = T.id)) ∧
      ((∀ t ∈ p.tabs, t.id ≠ T.id → t.bufferId ≠ T.bufferId) →
        mapGet s'.state.buffers T.bufferId = none) ∧
      (T.isActive = true → ∀ j,
        ((p.tabs.map (·.id)).filter (fun x => !decide (x = T.id))).length = j + 1 →
        paneActiveTabId s'.state =
          ((p.tabs.map (·.id)).filter (fun x => !decide (x = T.id)))[min i j]?) ∧
      (T.isActive = false → paneActiveTabId s'.state = p.activeTabId) ∧
      (paneTabs s'.state = [] → paneActiveTabId s'.state = none) := by
  have hTmem : T ∈ p.tabs := List.getElem?_mem hTi
  have hids_len : ∀ na : Option String,
      ((p.tabs.filter fun t => !decide (t.id = T.id)).map fun t =>
        { t with isActive := decide (some t.id = na) }).map (·.id) =
      (p.tabs.map (·.id)).filter (fun x => !decide (x = T.id)) := fun na =>
    closePaneUpd_ids p T.id na
  have hanyFalse : (∀ t ∈ p.tabs, t.id ≠ T.id → t.bufferId ≠ T.bufferId) →
      ((p.tabs.filter fun t => !decide (t.id = T.id)).any fun t =>
        decide (t.bufferId = T.bufferId)) = false := by
    intro hLast
    rw [List.any_eq_false]
    intro t htm
    rcases List.mem_filter.mp htm with ⟨htm2, hpred⟩
    have htid : t.id ≠ T.id := by simpa using hpred
    simpa using hLast t htm2 htid
  unfold dispatch
  simp only [appReducer]
  rw [getActivePane_of_leaf hroot]
  dsimp only
  rw [hidx]
  dsimp only
  rw [hTi]
  dsimp only
  by_cases hlen : 0 < (p.tabs.filter fun t => !decide (t.id = T.id)).length
  · by_cases hact : T.isActive = true
    · -- T was active and other tabs remain: adjacent selection
      rw [if_pos hlen, if_pos hact]
      have hjmlt : min i ((p.tabs.filter fun t => !decide (t.id = T.id)).length - 1) <
          (p.tabs.filter fun t => !decide (t.id = T.id)).length := by omega
      have htoNat : (min (i : Int)
          (((p.tabs.filter fun t => !decide (t.id = T.id)).length : Int) - 1)).toNat =
          min i ((p.tabs.filter fun t => !decide (t.id = T.id)).length - 1) := by omega
      have hjs : jsIndex (p.tabs.filter fun t => !decide (t.id = T.id))
          (min (i : Int)
            (((p.tabs.filter fun t => !decide (t.id = T.id)).length : Int) - 1)) =
          some ((p.tabs.filter fun t => !decide (t.id = T.id)).get ⟨_, hjmlt⟩) := by
        unfold jsIndex
        rw [if_neg (by omega), htoNat]
        rw [List.getElem?_eq_getElem hjmlt]
        rfl
      rw [hjs]
      refine ⟨_, rfl, rfl, ?_, ?_, ?_, ?_, ?_⟩
      · dsimp only
        unfold paneTabs
        rw [hroot, updatePaneInLayout_leaf]
        rw [getActivePane_of_leaf (by rfl : (⟨.leaf _⟩ : PaneLayout).root = .leaf _)]
        exact hids_len _
      · intro hLast
        dsimp only
        rw [if_neg (by simp [hanyFalse hLast])]
        exact mapGet_mapDelete_self s.state.buffers T.bufferId
      · intro _ j hj
        dsimp only
        unfold paneActiveTabId
        rw [hroot, updatePaneInLayout_leaf]
        rw [getActivePane_of_leaf (by rfl : (⟨.leaf _⟩ : PaneLayout).root = .leaf _)]
        have hcomm : (p.tabs.map (·.id)).filter (fun x => !decide (x = T.id)) =
            (p.tabs.filter fun t => !decide (t.id = T.id)).map (·.id) :=
          (hids_len none).symm.trans (ids_flagUpdate _ _)
        have hlen2 : ((p.tabs.map (·.id)).filter (fun x => !decide (x = T.id))).length =
            (p.tabs.filter fun t => !decide (t.id = T.id)).length := by
          rw [hcomm, List.length_map]
        have hjlen : j = (p.tabs.filter fun t => !decide (t.id = T.id)).length - 1 := by
          omega
        subst hjlen
        rw [hcomm, List.getElem?_map, List.getElem?_eq_getElem hjmlt]
        rfl
      · intro hfalse
        rw [hact] at hfalse
        cases hfalse
      · intro hemp
        exfalso
        dsimp only at hemp
        unfold paneTabs at hemp
        rw [hroot, updatePaneInLayout_leaf] at hemp
        rw [getActivePane_of_leaf
          (by rfl : (⟨.leaf _⟩ : PaneLayout).root = .leaf _)] at hemp
        have := congrArg List.length hemp
        simp only [List.length_map, List.length_nil] at this
        omega
    · -- T was not active: previously active tab stays active
      rw [if_pos hlen, if_neg hact]
      refine ⟨_, rfl, rfl, ?_, ?_, ?_, ?_, ?_⟩
      · dsimp only
        unfold paneTabs
        rw [hroot, updatePaneInLayout_leaf]
        rw [getActivePane_of_leaf (by rfl : (⟨.leaf _⟩ : PaneLayout).root = .leaf _)]
        exact hids_len _
      · intro hLast
        dsimp only
        rw [if_neg (by simp [hanyFalse hLast])]
        exact mapGet_mapDelete_self s.state.buffers T.bufferId
      · intro htrue
        rw [htrue] at hact
        exact absurd rfl hact
      · intro _
        dsimp only
        unfold paneActiveTabId
        rw [hroot, updatePaneInLayout_leaf]
        rw [getActivePane_of_leaf (by rfl : (⟨.leaf _⟩ : PaneLayout).root = .leaf _)]
      · intro hemp
        exfalso
        dsimp only at hemp
        unfold paneTabs at hemp
        rw [hroot, updatePaneInLayout_leaf] at hemp
        rw [getActivePane_of_leaf
          (by rfl : (⟨.leaf _⟩ : PaneLayout).root = .leaf _)] at hemp
        have := congrArg List.length hemp
        simp only [List.length_map, List.length_nil] at this
        omega
  · -- the pane becomes empty
    rw [if_neg hlen]
    have hfe : (p.tabs.filter fun t => !decide (t.id = T.id)) = [] :=
      List.eq_nil_of_length_eq_zero (by omega)
    have hallT : ∀ t ∈ p.tabs, t.id = T.id := by
      intro t htm
      by_contra hc
      have hin : t ∈ (p.tabs.filter fun t => !decide (t.id = T.id)) :=
        List.mem_filter.mpr ⟨htm, by simp [hc]⟩
      rw [hfe] at hin
      cases hin
    refine ⟨_, rfl, rfl, ?_, ?_, ?_, ?_, ?_⟩
    · dsimp only
      unfold paneTabs
      rw [hroot, updatePaneInLayout_leaf]
      rw [getActivePane_of_leaf (by rfl : (⟨.leaf _⟩ : PaneLayout).root = .leaf _)]
      exact hids_len _
    · intro hLast
      dsimp only
      rw [if_neg (by simp [hanyFalse hLast])]
      exact mapGet_mapDelete_self s.state.buffers T.bufferId
    · intro _ j hj
      exfalso
      rw [← hids_len none] at hj
      simp only [List.length_map] at hj
      rw [hfe] at hj
      simp at hj
    · intro hTfalse
      dsimp only
      unfold paneActiveTabId
      rw [hroot, updatePaneInLayout_leaf]
      rw [getActivePane_of_leaf (by rfl : (⟨.leaf _⟩ : PaneLayout).root = .leaf _)]
      rcases hM with h | ⟨u, hu, huid⟩
      · exact h.symm
      · exfalso
        have hu2 : u.id = T.id := hallT u hu
        have h1 := hF T hTmem
        rw [huid, hu2] at h1
        simp at h1
        rw [h1] at hTfalse
        cases hTfalse
    · intro _
      dsimp only
      unfold paneActiveTabId
      rw [hroot, updatePaneInLayout_leaf]
      rw [getActivePane_of_leaf (by rfl : (⟨.leaf _⟩ : PaneLayout).root = .leaf _)]

/-- C5 (witness): closing the active second tab of the two-tab store
`sysE`; its buffer is removed and the first tab becomes active. -/
theorem C5_closeTab_witness :
    ∃ s', dispatch sysE (.closeTab "tab-2") = some s' ∧
      s'.ctr = sysE.ctr ∧
      (paneTabs s'.state).map (·.id) =
        (([⟨"tab-1", "buffer-1", "a.ts", false, false⟩,
           ⟨"tab-2", "buffer-2", "b.ts", true, false⟩] : List Tab).map (·.id)).filter
          (fun x => !decide (x = "tab-2")) ∧
      ((∀ t ∈ ([⟨"tab-1", "buffer-1", "a.ts", false, false⟩,
           ⟨"tab-2", "buffer-2", "b.ts", true, false⟩] : List Tab),
          t.id ≠ "tab-2" → t.bufferId ≠ "buffer-2") →
        mapGet s'.state.buffers "buffer-2" = none) ∧
      (true = true → ∀ j,
        ((([⟨"tab-1", "buffer-1", "a.ts", false, false⟩,
            ⟨"tab-2", "buffer-2", "b.ts", true, false⟩] : List Tab).map (·.id)).filter
          (fun x => !decide (x = "tab-2"))).length = j + 1 →
        paneActiveTabId s'.state =
          ((([⟨"tab-1", "buffer-1", "a.ts", false, false⟩,
              ⟨"tab-2", "buffer-2", "b.ts", true, false⟩] : List Tab).map (·.id)).filter
            (fun x => !decide (x = "tab-2")))[min 1 j]?) ∧
      (true = false → paneActiveTabId s'.state = some "tab-2") ∧
      (paneTabs s'.state = [] → paneActiveTabId s'.state = none) :=
  @C5_closeTab sysE
    { id := "main-pane", type := .editor
      tabs := [⟨"tab-1", "buffer-1", "a.ts", false, false⟩,
               ⟨"tab-2", "buffer-2", "b.ts", true, false⟩]
      activeTabId := some "tab-2", size := 100 }
    ⟨"tab-2", "buffer-2", "b.ts", true, false⟩ 1
    rfl (by unfold paneFlagsOk; decide) (by unfold activeOk; decide) (by decide) (by decide)

theorem switchPane_length (p : Pane) (tid : String) :
    (switchPane p tid).tabs.length = p.tabs.length := by
  unfold switchPane
  simp

theorem switchPane_flags2 (p : Pane) (tid : String) :
    ∀ t ∈ (switchPane p tid).tabs, t.isActive = decide (t.id = tid) := by
  intro t ht
  rcases List.mem_map.mp ht with ⟨t0, _, rfl⟩
  rfl

theorem findIdx?_isActive {tabs : List Tab} {aid : String} :
    ∀ {k : Nat}, (tabs.map (·.id)).Nodup →
    (∀ t ∈ tabs, t.isActive = decide (t.id = aid)) →
    (tabs.map (·.id))[k]? = some aid →
    tabs.findIdx? (fun t => t.isActive) = some k := by
  induction tabs with
  | nil => intro k _ _ hget; simp at hget
  | cons a t ih =>
    intro k hN hflags hget
    rw [List.map_cons, List.nodup_cons] at hN
    cases k with
    | zero =>
      simp only [List.map_cons, List.getElem?_cons_zero, Option.some.injEq] at hget
      have ha : a.isActive = true := by
        rw [hflags a (by simp), hget]
        simp
      rw [List.findIdx?_cons, ha]
      rfl
    | succ k =>
      simp only [List.map_cons, List.getElem?_cons_succ] at hget
      have hmem : aid ∈ t.map (·.id) := List.getElem?_mem hget
      have ha : a.isActive = false := by
        rw [hflags a (by simp)]
        simp only [decide_eq_false_iff_not]
        intro hc
        exact hN.1 (hc ▸ hmem)
      rw [List.findIdx?_cons, ha]
      have := ih hN.2 (fun x hx => hflags x (by simp [hx])) hget
      simp [this]

theorem findIdx?_switchPane {p : Pane} {j : Nat} (hN : (p.tabs.map (·.id)).Nodup)
    (hj : j < p.tabs.length) :
    (switchPane p (p.tabs.get ⟨j, hj⟩).id).tabs.findIdx? (fun t => t.isActive) =
      some j := by
  apply findIdx?_isActive
  · rw [switchPane_ids]; exact hN
  · exact switchPane_flags2 p _
  · rw [switchPane_ids, List.getElem?_map, List.getElem?_eq_getElem hj]
    rfl

theorem paneActiveTabId_applySwitchTab {st : AppState} {p : Pane}
    (hroot : st.layout.root = .leaf p) (tid : String) :
    paneActiveTabId (applySwitchTab st tid) = some tid := by
  unfold paneActiveTabId
  rw [applySwitchTab_of_leaf hroot]
  rw [getActivePane_of_leaf (by rfl : (⟨.leaf _⟩ : PaneLayout).root = .leaf _)]
  rfl

theorem dispatch_nextTab_of_findIdx {s : Sys} {p : Pane} {k : Nat}
    (hroot : s.state.layout.root = .leaf p)
    (hne : p.tabs ≠ [])
    (hfi : p.tabs.findIdx? (fun t => t.isActive) = some k)
    (hk1 : (k + 1) % p.tabs.length < p.tabs.length) :
    dispatch s .nextTab =
      some ⟨s.ctr, applySwitchTab s.state
        (p.tabs.get ⟨(k + 1) % p.tabs.length, hk1⟩).id⟩ := by
  have hn0 : 0 < p.tabs.length := List.length_pos.mpr hne
  unfold dispatch
  simp only [appReducer]
  rw [getActivePane_of_leaf hroot]
  dsimp only
  rw [if_neg (by omega : ¬p.tabs.length = 0)]
  have hfidx : jsFindIndex (fun t => t.isActive) p.tabs = (k : Int) := by
    unfold jsFindIndex
    rw [hfi]
  rw [hfidx]
  have hcast : ((k : Int) + 1) % ((p.tabs.length : Nat) : Int) =
      (((k + 1) % p.tabs.length : Nat) : Int) := by
    push_cast
    ring
  rw [hcast]
  have hji : jsIndex p.tabs (((k + 1) % p.tabs.length : Nat) : Int) =
      some (p.tabs.get ⟨(k + 1) % p.tabs.length, hk1⟩) := by
    unfold jsIndex
    rw [if_neg (by omega)]
    have ht : ((((k + 1) % p.tabs.length : Nat) : Int)).toNat =
        (k + 1) % p.tabs.length := by omega
    rw [ht, List.getElem?_eq_getElem hk1]
    rfl
  rw [hji]
  rfl

theorem dispatch_prevTab_of_findIdx {s : Sys} {p : Pane} {k : Nat}
    (hroot : s.state.layout.root = .leaf p)
    (hne : p.tabs ≠ [])
    (hfi : p.tabs.findIdx? (fun t => t.isActive) = some k)
    (hkp : (if k = 0 then p.tabs.length - 1 else k - 1) < p.tabs.length) :
    dispatch s .prevTab =
      some ⟨s.ctr, applySwitchTab s.state
        (p.tabs.get ⟨if k = 0 then p.tabs.length - 1 else k - 1, hkp⟩).id⟩ := by
  have hn0 : 0 < p.tabs.length := List.length_pos.mpr hne
  unfold dispatch
  simp only [appReducer]
  rw [getActivePane_of_leaf hroot]
  dsimp only
  rw [if_neg (by omega : ¬p.tabs.length = 0)]
  have hfidx : jsFindIndex (fun t => t.isActive) p.tabs = (k : Int) := by
    unfold jsFindIndex
    rw [hfi]
  rw [hfidx]
  have hcast : (if (k : Int) = 0 then ((p.tabs.length : Nat) : Int) - 1 else (k : Int) - 1) =
      ((if k = 0 then p.tabs.length - 1 else k - 1 : Nat) : Int) := by
    by_cases hk0 : k = 0
    · subst hk0
      rw [if_pos rfl, if_pos (by omega)]
      omega
    · rw [if_neg hk0, if_neg (by omega)]
      omega
  rw [hcast]
  have hji : jsIndex p.tabs ((if k = 0 then p.tabs.length - 1 else k - 1 : Nat) : Int) =
      some (p.tabs.get ⟨if k = 0 then p.tabs.length - 1 else k - 1, hkp⟩) := by
    unfold jsIndex
    rw [if_neg (by omega)]
    have ht : (((if k = 0 then p.tabs.length - 1 else k - 1 : Nat) : Int)).toNat =
        (if k = 0 then p.tabs.length - 1 else k - 1) := by omega
    rw [ht, List.getElem?_eq_getElem hkp]
    rfl
  rw [hji]
  rfl

/-- C7: for every state whose active pane has a non-empty tab list with an
active tab, dispatching `NEXT_TAB` then `PREV_TAB` (and likewise
`PREV_TAB` then `NEXT_TAB`) returns the pane's active tab identity to its
original value. -/
theorem C7_next_prev_roundtrip {s : Sys} {p : Pane}
    (hroot : s.state.layout.root = .leaf p)
    (hne : p.tabs ≠ [])
    (hN : (p.tabs.map (·.id)).Nodup)
    (hF : paneFlagsOk p)
    (hact : ∃ t ∈ p.tabs, p.activeTabId = some t.id) :
    (∃ s1 s2, dispatch s .nextTab = some s1 ∧ dispatch s1 .prevTab = some s2 ∧
      paneActiveTabId s2.state = p.activeTabId) ∧
    (∃ s3 s4, dispatch s .prevTab = some s3 ∧ dispatch s3 .nextTab = some s4 ∧
      paneActiveTabId s4.state = p.activeTabId) := by
  obtain ⟨u, hu, huid⟩ := hact
  obtain ⟨k, hk, hku⟩ := List.getElem_of_mem hu
  have hn0 : 0 < p.tabs.length := List.length_pos.mpr hne
  have hflags0 : ∀ t ∈ p.tabs, t.isActive = decide (t.id = u.id) := by
    intro t ht
    rw [hF t ht, huid]
    by_cases h : t.id = u.id
    · simp [h]
    · simp [h]
  have hgetk : (p.tabs.map (·.id))[k]? = some u.id := by
    rw [List.getElem?_map, List.getElem?_eq_getElem hk]
    simp [hku]
  have hfi : p.tabs.findIdx? (fun t => t.isActive) = some k :=
    findIdx?_isActive hN hflags0 hgetk
  constructor
  · -- NEXT_TAB then PREV_TAB
    have hk1 : (k + 1) % p.tabs.length < p.tabs.length := Nat.mod_lt _ hn0
    have hd1 := dispatch_nextTab_of_findIdx hroot hne hfi hk1
    have hroot1 : (⟨s.ctr, applySwitchTab s.state
        (p.tabs.get ⟨(k + 1) % p.tabs.length, hk1⟩).id⟩ : Sys).state.layout.root =
        .leaf (switchPane p (p.tabs.get ⟨(k + 1) % p.tabs.length, hk1⟩).id) := by
      rw [applySwitchTab_of_leaf hroot]
    have hne1 : (switchPane p (p.tabs.get ⟨(k + 1) % p.tabs.length, hk1⟩).id).tabs ≠ [] := by
      rw [← List.length_pos, switchPane_length]
      exact hn0
    have hfi1 := findIdx?_switchPane hN hk1
    have hkp : (if (k + 1) % p.tabs.length = 0 then
        (switchPane p (p.tabs.get ⟨(k + 1) % p.tabs.length, hk1⟩).id).tabs.length - 1
        else (k + 1) % p.tabs.length - 1) <
        (switchPane p (p.tabs.get ⟨(k + 1) % p.tabs.length, hk1⟩).id).tabs.length := by
      rw [switchPane_length]
      split <;> omega
    have hd2 := dispatch_prevTab_of_findIdx hroot1 hne1 hfi1 hkp
    refine ⟨_, _, hd1, hd2, ?_⟩
    dsimp only
    rw [paneActiveTabId_applySwitchTab hroot1]
    have hidx2 : (if (k + 1) % p.tabs.length = 0 then
        (switchPane p (p.tabs.get ⟨(k + 1) % p.tabs.length, hk1⟩).id).tabs.length - 1
        else (k + 1) % p.tabs.length - 1) = k := by
      rw [switchPane_length]
      have h1 : (k + 1) % p.tabs.length = 0 ∨ (k + 1) % p.tabs.length = k + 1 := by
        rcases Nat.lt_or_ge (k + 1) p.tabs.length with h | h
        · right; exact Nat.mod_eq_of_lt h
        · left
          have : k + 1 = p.tabs.length := by omega
          rw [this]
          exact Nat.mod_self _
      rcases h1 with h1 | h1
      · rw [if_pos h1]
        have : k + 1 = p.tabs.length := by
          rcases Nat.lt_or_ge (k + 1) p.tabs.length with h | h
          · rw [Nat.mod_eq_of_lt h] at h1; omega
          · omega
        omega
      · rw [h1]
        rw [if_neg (by omega)]
        omega
    have ht2 : ((switchPane p (p.tabs.get ⟨(k + 1) % p.tabs.length, hk1⟩).id).tabs.get
        ⟨if (k + 1) % p.tabs.length = 0 then
          (switchPane p (p.tabs.get ⟨(k + 1) % p.tabs.length, hk1⟩).id).tabs.length - 1
          else (k + 1) % p.tabs.length - 1, hkp⟩).id = u.id := by
      rw [switchPane_length] at hidx2
      unfold switchPane
      simp only [List.get_eq_getElem, List.getElem_map, List.length_map]
      simp only [hidx2]
      rw [hku]
    rw [ht2, huid]
  · -- PREV_TAB then NEXT_TAB
    have hk3 : (if k = 0 then p.tabs.length - 1 else k - 1) < p.tabs.length := by
      split <;> omega
    have hd3 := dispatch_prevTab_of_findIdx hroot hne hfi hk3
    have hroot3 : (⟨s.ctr, applySwitchTab s.state
        (p.tabs.get ⟨if k = 0 then p.tabs.length - 1 else k - 1, hk3⟩).id⟩ :
          Sys).state.layout.root =
        .leaf (switchPane p
          (p.tabs.get ⟨if k = 0 then p.tabs.length - 1 else k - 1, hk3⟩).id) := by
      rw [applySwitchTab_of_leaf hroot]
    have hne3 : (switchPane p
        (p.tabs.get ⟨if k = 0 then p.tabs.length - 1 else k - 1, hk3⟩).id).tabs ≠ [] := by
      rw [← List.length_pos, switchPane_length]
      exact hn0
    have hfi3 := findIdx?_switchPane hN hk3
    have hk4 : ((if k = 0 then p.tabs.length - 1 else k - 1) + 1) %
        (switchPane p
          (p.tabs.get ⟨if k = 0 then p.tabs.length - 1 else k - 1, hk3⟩).id).tabs.length <
        (switchPane p
          (p.tabs.get ⟨if k = 0 then p.tabs.length - 1 else k - 1, hk3⟩).id).tabs.length := by
      rw [switchPane_length]
      exact Nat.mod_lt _ hn0
    have hd4 := dispatch_nextTab_of_findIdx hroot3 hne3 hfi3 hk4
    refine ⟨_, _, hd3, hd4, ?_⟩
    dsimp only
    rw [paneActiveTabId_applySwitchTab hroot3]
    have hidx4 : ((if k = 0 then p.tabs.length - 1 else k - 1) + 1) %
        (switchPane p
          (p.tabs.get ⟨if k = 0 then p.tabs.length - 1 else k - 1, hk3⟩).id).tabs.length =
        k := by
      rw [switchPane_length]
      by_cases hk0 : k = 0
      · subst hk0
        rw [if_pos rfl]
        have : p.tabs.length - 1 + 1 = p.tabs.length := by omega
        rw [this]
        exact Nat.mod_self _
      · rw [if_neg hk0]
        have : k - 1 + 1 = k := by omega
        rw [this]
        exact Nat.mod_eq_of_lt hk
    have ht4 : ((switchPane p
        (p.tabs.get ⟨if k = 0 then p.tabs.length - 1 else k - 1, hk3⟩).id).tabs.get
        ⟨((if k = 0 then p.tabs.length - 1 else k - 1) + 1) %
          (switchPane p
            (p.tabs.get ⟨if k = 0 then p.tabs.length - 1 else k - 1, hk3⟩).id).tabs.length,
          hk4⟩).id = u.id := by
      rw [switchPane_length] at hidx4
      unfold switchPane
      simp only [List.get_eq_getElem, List.getElem_map, List.length_map]
      simp only [hidx4]
      rw [hku]
    rw [ht4, huid]

/-- Concrete instantiation: from the two-tab state sysE (active tab "tab-2"),
NEXT_TAB then PREV_TAB, and PREV_TAB then NEXT_TAB, both restore the active
tab id "tab-2". -/
theorem C7_next_prev_roundtrip_witness :
    (∃ s1 s2, dispatch sysE .nextTab = some s1 ∧ dispatch s1 .prevTab = some s2 ∧
      paneActiveTabId s2.state = some "tab-2") ∧
    (∃ s3 s4, dispatch sysE .prevTab = some s3 ∧ dispatch s3 .nextTab = some s4 ∧
      paneActiveTabId s4.state = some "tab-2") :=
  @C7_next_prev_roundtrip sysE
    { id := "main-pane", type := .editor
      tabs := [⟨"tab-1", "buffer-1", "a.ts", false, false⟩,
               ⟨"tab-2", "buffer-2", "b.ts", true, false⟩]
      activeTabId := some "tab-2", size := 100 }
    rfl (by decide) (by decide) (by unfold paneFlagsOk; decide)
    ⟨⟨"tab-2", "buffer-2", "b.ts", true, false⟩, by decide, rfl⟩
